import Mathlib

/-!
Verification of the Smallbrain search engine specification against the
sources under `src/` (search.cpp, helper.cpp, evaluation.cpp).

The development shallow-embeds the search driver: scores are `Int`
(C++ `int32_t`; all values stay far below 2^31 so no wrap-around occurs),
C++ `/` on signed ints is `Int.tdiv` (truncation toward zero), and `& 1`
on scores is `Int.emod · 2`.  Board queries, move generation, the
transposition-table probe, SEE and the tablebase probe are external
collaborators (spec §6); they enter as an oracle record `Env`, and the
searcher itself (qsearch / absearch / aspirationSearch / limitReached /
the history updates) is translated line by line from `src/src/search.cpp`.
Stateful effects (node counter, stop flag, TT stores, stack frames,
killers, history, PV table) are threaded through an explicit `SState`;
TT stores additionally append a ghost record to a trace so that store
properties can be stated, and searched moves are logged.
-/

namespace Smallbrain

/-! ### Score constants

The numeric score constants live in a header that is not part of `src/`.
Modelled from the spec: §3 fixes the partition
`[-INF+1, MATED_IN_MAX_PLY] < TB loss < centipawns < TB win <
[MATE_IN_MAX_PLY, INF-1]` with sentinel `VALUE_NONE` outside, §4.A fixes
`mate_in(ply) = MATE - ply`, and search.cpp / evaluation.cpp use the
names `VALUE_MATE`, `VALUE_INFINITE`, `VALUE_NONE`, `VALUE_MATE_IN_PLY`,
`VALUE_MATED_IN_PLY`, `VALUE_TB_WIN`, `VALUE_TB_LOSS`,
`VALUE_TB_WIN_IN_MAX_PLY`, `VALUE_TB_LOSS_IN_MAX_PLY`, `MAX_PLY`.
Concrete values are chosen consistently with that partition
(`VALUE_MATE_IN_PLY = VALUE_MATE - MAX_PLY` and so on). -/

def MAX_PLY : Int := 120

def VALUE_MATE : Int := 32000

def VALUE_INFINITE : Int := 32001

def VALUE_NONE : Int := 32002

def VALUE_MATE_IN_PLY : Int := VALUE_MATE - MAX_PLY

def VALUE_MATED_IN_PLY : Int := -VALUE_MATE_IN_PLY

def VALUE_TB_WIN : Int := VALUE_MATE_IN_PLY

def VALUE_TB_LOSS : Int := -VALUE_TB_WIN

def VALUE_TB_WIN_IN_MAX_PLY : Int := VALUE_TB_WIN - MAX_PLY

def VALUE_TB_LOSS_IN_MAX_PLY : Int := -VALUE_TB_WIN_IN_MAX_PLY

/-- `mate_in(ply) = MATE - ply` (spec §4.A). -/
def mate_in (ply : Int) : Int := VALUE_MATE - ply

/-- `mated_in(ply) = -MATE + ply` (spec §4.A). -/
def mated_in (ply : Int) : Int := -VALUE_MATE + ply

/-- Modelled from the spec: §4.A.  `scoreToTT` lives in a score header
that is not under `src/` (search.cpp only calls it).
"`scoreToTT(s, ply)`: if `s >= MATE_IN_MAX_PLY` return `s + ply`;
if `s <= MATED_IN_MAX_PLY` return `s - ply`; else `s`." -/
def scoreToTT (s : Int) (ply : Int) : Int :=
  if s ≥ VALUE_MATE_IN_PLY then s + ply
  else if s ≤ VALUE_MATED_IN_PLY then s - ply
  else s

/-- Modelled from the spec: §4.A.  "`scoreFromTT(s, ply)` is the
inverse": mate-range wins give back `s - ply`, mate-range losses
`s + ply`, identity otherwise. -/
def scoreFromTT (s : Int) (ply : Int) : Int :=
  if s ≥ VALUE_MATE_IN_PLY then s - ply
  else if s ≤ VALUE_MATED_IN_PLY then s + ply
  else s

/-! ### Data model -/

/-- Side to move. -/
inductive Color where
  | white
  | black
deriving DecidableEq, Repr

/-- `~color`. -/
def Color.other : Color → Color
  | .white => .black
  | .black => .white

/-- Piece types; `NONETYPE` is `type_of_piece(None)` (empty square). -/
inductive PieceType where
  | PAWN
  | KNIGHT
  | BISHOP
  | ROOK
  | QUEEN
  | KING
  | NONETYPE
deriving DecidableEq, Repr

/-- A move: the 16-bit move word exposes `from(move)`, `to(move)` and
`promoted(move)`; `tag` keeps distinct moves with equal squares apart
(promotion piece and so on). -/
structure Move where
  fromSq : Nat
  toSq : Nat
  promo : Bool
  tag : Nat
deriving DecidableEq, Repr

def NO_MOVE : Move := ⟨0, 0, false, 0⟩

def NULL_MOVE : Move := ⟨0, 0, false, 1⟩

/-- TT bound flags. -/
inductive Flag where
  | NONEBOUND
  | LOWERBOUND
  | UPPERBOUND
  | EXACTBOUND
deriving DecidableEq, Repr

/-- Modelled from the spec: the flag enum is a bitmask
(`tte->flag & LOWERBOUND` in search.cpp line 497); "tt flag has LOWER"
holds for `LOWERBOUND` and `EXACTBOUND` (= LOWER | UPPER). -/
def Flag.hasLower : Flag → Bool
  | .LOWERBOUND => true
  | .EXACTBOUND => true
  | _ => false

/-- `Board::isDrawn` result (spec §6.1). -/
inductive DrawResult where
  | RNONE
  | DRAWN
  | LOST
deriving DecidableEq, Repr

/-- View of a transposition-table entry as probed (spec §3, §4.C). -/
structure TEntry where
  score : Int
  depth : Int
  flag : Flag
  move : Move
deriving DecidableEq, Repr

/-- One search-stack frame (spec §3): `ply, current_move, eval,
excluded_move`. -/
structure Frame where
  ply : Int
  currentmove : Move
  eval : Int
  excludedMove : Move
deriving DecidableEq, Repr

/-- Ghost record of one `TTable.storeEntry` call: the stored fields
plus the ply of the storing frame and the value of the shared stop
flag at the moment of the store. -/
structure StoreRec where
  depth : Int
  score : Int
  flag : Flag
  key : Nat
  move : Move
  ply : Int
  stoppedAt : Bool
deriving DecidableEq, Repr

/-- Per-worker mutable search state (spec §3 SearchState), threaded
explicitly.  `trace` and `searched` are ghost logs of TT stores and of
moves actually made/searched. -/
structure SState where
  nodes : Nat
  stopped : Bool
  checkTime : Int
  tick : Nat
  trace : List StoreRec
  searched : List (Int × Move)
  stack : Int → Frame
  killer0 : Int → Move
  killer1 : Int → Move
  history : Color → Nat → Nat → Int
  spentEffort : Nat → Nat → Int
  pvTable : Int → Int → Move
  pvLength : Int → Int
  seldepth : Int

/-- Per-search configuration: worker id, search kind and limits. -/
structure SConfig where
  normalSearch : Bool
  id : Nat
  useTB : Bool
  limitNodes : Nat
  limitTimeMax : Int

/-- Oracle for the external collaborators of the search (spec §6):
board queries, move generation as yielded by the move picker, static
evaluation, TT probing, SEE, tablebase probe, the process-wide
reductions table and the wall clock.  `P` is the abstract position
type; `makeMove`/`makeNull` advance it (unmake is implicit in the
functional embedding). -/
structure Env (P : Type) where
  sideToMove : P → Color
  inCheck : P → Bool
  isRepetition : P → Nat → Bool
  isDrawn : P → Bool → DrawResult
  evaluation : P → Int
  hashKey : P → Nat
  probeTT : P → Option TEntry
  qmoves : P → List Move
  amoves : P → List Move
  pieceTypeAt : P → Nat → PieceType
  pieceValEG : PieceType → Int
  see : P → Move → Int → Bool
  nonPawnMat : P → Color → Bool
  makeMove : P → Move → P
  makeNull : P → P
  probeTB : P → Int
  reductions : Int → Nat → Int
  elapsed : Nat → Int

/-- `TTable.storeEntry(depth, score, flag, key, move)`: append a ghost
record, stamped with the storing frame's ply and the current stop
flag. -/
def storeEntry (st : SState) (depth score : Int) (flag : Flag) (key : Nat)
    (move : Move) (ply : Int) : SState :=
  { st with trace := st.trace ++ [⟨depth, score, flag, key, move, ply, st.stopped⟩] }

/-! ### History updates (src/src/search.cpp lines 28-74) -/

/-- `bonus(depth)` from search.cpp line 28. -/
def bonus (depth : Int) : Int := min 2000 (depth * 155)

/-- Butterfly history table. -/
def Hist : Type := Color → Nat → Nat → Int

/-- Pointwise update of the history table. -/
def histSet (h : Hist) (c : Color) (f t : Nat) (v : Int) : Hist :=
  fun c' f' t' => if c' = c ∧ f' = f ∧ t' = t then v else h c' f' t'

/-- `Search::updateHistoryBonus<QUIET>` (search.cpp lines 33-38):
`hhBonus = bonus - getHistory(move) * abs(bonus) / 16384;
history[side][from][to] += hhBonus`. -/
def updateHistoryBonus (c : Color) (h : Hist) (m : Move) (b : Int) : Hist :=
  let hhBonus := b - Int.tdiv (h c m.fromSq m.toSq * (b.natAbs : Int)) 16384
  histSet h c m.fromSq m.toSq (h c m.fromSq m.toSq + hhBonus)

/-- `Search::updateHistory<QUIET>` (search.cpp lines 40-53). -/
def updateHistory (c : Color) (bestmove : Move) (b : Int) (depth : Int)
    (quiets : List Move) (h : Hist) : Hist :=
  let h := if depth > 1 then updateHistoryBonus c h bestmove b else h
  quiets.foldl (fun h m => if m = bestmove then h else updateHistoryBonus c h m (-b)) h

/-- `Search::updateAllHistories` (search.cpp lines 55-74): on a beta
cutoff with a quiet best move, shift the killers and update the
butterfly history. -/
def updateAllHistories {P : Type} (env : Env P) (pos : P) (ply : Int)
    (bestMove : Move) (best beta : Int) (depth : Int) (quiets : List Move)
    (st : SState) : SState :=
  if best < beta then st
  else
    let depthBonus := bonus depth
    if env.pieceTypeAt pos bestMove.toSq = PieceType.NONETYPE then
      { st with
        killer1 := fun p => if p = ply then st.killer0 ply else st.killer1 p
        killer0 := fun p => if p = ply then bestMove else st.killer0 p
        history := updateHistory (env.sideToMove pos) bestMove depthBonus depth
          quiets st.history }
    else st

/-! ### Limit checking (src/src/search.cpp lines 841-869) -/

/-- `Search::limitReached`.  The wall clock is the oracle `env.elapsed`
sampled at the state's `tick`, which advances on every `getTime()`
call; `checkTime` decrements first (`--checkTime > 0`), and a timeout
sets the shared stop flag. -/
def limitReached {P : Type} (cfg : SConfig) (env : Env P) (st : SState) :
    Bool × SState :=
  if cfg.normalSearch ∧ st.stopped then (true, st)
  else if cfg.id ≠ 0 then (false, st)
  else if cfg.limitNodes ≠ 0 ∧ st.nodes ≥ cfg.limitNodes then (true, st)
  else if st.checkTime - 1 > 0 then (false, { st with checkTime := st.checkTime - 1 })
  else if cfg.limitTimeMax ≠ 0 then
    if env.elapsed st.tick ≥ cfg.limitTimeMax then
      (true, { st with checkTime := 2047, tick := st.tick + 1, stopped := true })
    else (false, { st with checkTime := 2047, tick := st.tick + 1 })
  else (false, { st with checkTime := 2047 })

/-! ### Quiescence search (src/src/search.cpp lines 76-203) -/

/-- The TT store at the end of `Search::qsearch` (lines 192-199):
`Flag b = bestValue >= beta ? LOWERBOUND : UPPERBOUND;
if (!normalSearch || !stopped) storeEntry(0, scoreToTT(bestValue, ply),
b, key, bestMove)`. -/
def qsearchTTStore (cfg : SConfig) (ply : Int) (bestValue beta : Int) (key : Nat)
    (bestMove : Move) (st : SState) : SState :=
  let b : Flag := if bestValue ≥ beta then Flag.LOWERBOUND else Flag.UPPERBOUND
  if cfg.normalSearch = false ∨ st.stopped = false then
    storeEntry st 0 (scoreToTT bestValue ply) b key bestMove ply
  else st

/-- The move loop of `Search::qsearch` (lines 144-190).  `child` is the
recursive qsearch call at the next ply, taking `(alpha, beta, position,
state)` (the fuel is already fixed inside it).  Arguments mirror the
loop-carried variables; the result is
`(bestValue, alpha, bestMove, state)`. -/
def qsearchLoop {P : Type} (env : Env P)
    (child : Int → Int → P → SState → Int × SState)
    (ply : Int) (pos : P) (inCheck : Bool) (color : Color) (beta : Int) :
    List Move → Int → Int → Move → SState → Int × Int × Move × SState
  | [], bestValue, alpha, bestMove, st => (bestValue, alpha, bestMove, st)
  | m :: ms, bestValue, alpha, bestMove, st =>
    let captured := env.pieceTypeAt pos m.toSq
    -- delta pruning (lines 149-159)
    if bestValue > VALUE_TB_LOSS_IN_MAX_PLY ∧ captured ≠ PieceType.NONETYPE ∧
        inCheck = false ∧ bestValue + 400 + env.pieceValEG captured < alpha ∧
        m.promo = false ∧ env.nonPawnMat pos color = true then
      qsearchLoop env child ply pos inCheck color beta ms bestValue alpha bestMove st
    -- SEE-based capture pruning (lines 161-163)
    else if bestValue > VALUE_TB_LOSS_IN_MAX_PLY ∧ inCheck = false ∧
        env.see pos m 0 = false then
      qsearchLoop env child ply pos inCheck color beta ms bestValue alpha bestMove st
    else
      let st := { st with nodes := st.nodes + 1, searched := st.searched ++ [(ply, m)] }
      let r := child (-beta) (-alpha) (env.makeMove pos m) st
      let score := -r.1
      let st := r.2
      if score > bestValue then
        if score > alpha then
          if score ≥ beta then (score, score, m, st)
          else qsearchLoop env child ply pos inCheck color beta ms score score m st
        else qsearchLoop env child ply pos inCheck color beta ms score alpha bestMove st
      else qsearchLoop env child ply pos inCheck color beta ms bestValue alpha bestMove st

/-- The TT cutoff of `Search::qsearch` (lines 117-135): on a hit in a
non-PV node with a usable score and flag, an EXACT bound, a LOWER bound
at or above beta, or an UPPER bound at or below alpha short-circuits. -/
def qsearchTTCut (tte? : Option TEntry) (pv : Bool) (ply alpha beta : Int) :
    Option Int :=
  match tte? with
  | none => none
  | some tte =>
    let ttScore := scoreFromTT tte.score ply
    if pv = false ∧ ttScore ≠ VALUE_NONE ∧ tte.flag ≠ Flag.NONEBOUND then
      if tte.flag = Flag.EXACTBOUND then some ttScore
      else if tte.flag = Flag.LOWERBOUND ∧ ttScore ≥ beta then some ttScore
      else if tte.flag = Flag.UPPERBOUND ∧ ttScore ≤ alpha then some ttScore
      else none
    else none

/-- `Search::qsearch` (lines 76-203), fuelled (fuel 0 plays the role of
an unreachable recursion bound and returns 0, like an abort).  `pv`
is `node == PV` of the template argument. -/
def qsearch {P : Type} (env : Env P) (cfg : SConfig) :
    Nat → Bool → Int → Int → Int → P → SState → Int × SState
  | 0, _, _, _, _, _, st => (0, st)
  | fuel + 1, pv, ply, alpha, beta, pos, st =>
    let lr := limitReached cfg env st
    if lr.1 then (0, lr.2)
    else
      let st := lr.2
      let color := env.sideToMove pos
      let inCheck := env.inCheck pos
      if ply ≥ MAX_PLY then (env.evaluation pos, st)
      else if env.isRepetition pos (1 + cond pv 1 0) then
        (-1 + ((st.nodes &&& 2 : Nat) : Int), st)
      else
        match env.isDrawn pos inCheck with
        | DrawResult.LOST => (mated_in ply, st)
        | DrawResult.DRAWN => (0, st)
        | DrawResult.RNONE =>
          let standPat := env.evaluation pos
          if standPat ≥ beta then (standPat, st)
          else
            match qsearchTTCut (env.probeTT pos) pv ply (max alpha standPat) beta with
            | some s => (s, st)
            | none =>
              let lp := qsearchLoop env (qsearch env cfg fuel pv (ply + 1)) ply pos
                inCheck color beta (env.qmoves pos) standPat (max alpha standPat)
                NO_MOVE st
              (lp.1,
                qsearchTTStore cfg ply lp.1 beta (env.hashKey pos) lp.2.2.1 lp.2.2.2)

/-! ### Iterative-deepening stack initialisation and `improving`
(src/src/search.cpp lines 726-732 and 363-368) -/

/-- The stack initialisation loop of `Search::iterativeDeepening`
(lines 726-732): every frame `i ∈ [-2, MAX_PLY+1]` is set to
`ply = i, currentmove = NO_MOVE, eval = 0, excludedMove = NO_MOVE`. -/
def initStack : Int → Frame := fun i => ⟨i, NO_MOVE, 0, NO_MOVE⟩

/-- The `improving` boolean of `Search::absearch` (line 368):
`(ss - 2)->eval != VALUE_NONE ? staticEval > (ss - 2)->eval : false`. -/
def improvingOf (staticEval evalPly2 : Int) : Bool :=
  if evalPly2 ≠ VALUE_NONE then decide (evalPly2 < staticEval) else false

/-! ### Alpha-beta search (src/src/search.cpp lines 205-648) -/

/-- Node kinds of the `absearch` template parameter. -/
inductive NodeK where
  | Root
  | PV
  | NonPV
deriving DecidableEq, Repr

/-- `PvNode` (= `node != NonPV`) as a C++ bool-to-int value. -/
def pvBool : NodeK → Bool
  | NodeK.NonPV => false
  | _ => true

/-- `PvNode` converted to an int, as in `3 + 2 * PvNode`. -/
def pvNum (node : NodeK) : Int := cond (pvBool node) 1 0

/-- Update one stack frame. -/
def setFrame (st : SState) (i : Int) (f : Frame → Frame) : SState :=
  { st with stack := fun j => if j = i then f (st.stack i) else st.stack j }

def setExcluded (st : SState) (i : Int) (m : Move) : SState :=
  setFrame st i (fun fr => { fr with excludedMove := m })

def setCurrentMove (st : SState) (i : Int) (m : Move) : SState :=
  setFrame st i (fun fr => { fr with currentmove := m })

def setEval (st : SState) (i : Int) (v : Int) : SState :=
  setFrame st i (fun fr => { fr with eval := v })

/-- `pvLength[ss->ply] = ss->ply` (line 229). -/
def setPvLenInit (ply : Int) (st : SState) : SState :=
  { st with pvLength := fun i => if i = ply then ply else st.pvLength i }

/-- The seldepth update (lines 271-272). -/
def updSeldepth (c : Bool) (ply : Int) (st : SState) : SState :=
  if c = true then { st with seldepth := ply } else st

/-- The PV update on an alpha improvement (lines 602-610):
`pv[ply][ply] = move`, copy the child's line, take its length. -/
def copyPv (st : SState) (ply : Int) (m : Move) : SState :=
  { st with
    pvTable := fun i j =>
      if i = ply ∧ j = ply then m
      else if i = ply ∧ ply + 1 ≤ j ∧ j < st.pvLength (ply + 1) then
        st.pvTable (ply + 1) j
      else st.pvTable i j
    pvLength := fun i => if i = ply then st.pvLength (ply + 1) else st.pvLength i }

/-- The TT-bound adjustment of `absearch` (lines 286-304), applied when
`active` (non-root, no excluded move, non-PV, hit of sufficient depth,
previous move not null, usable score): EXACT returns the score, LOWER
raises alpha, UPPER lowers beta, and a crossed window returns the
score.  Result: `(early return, alpha, beta)`. -/
def absearchTTAdj (active : Bool) (flag : Flag) (ttScore : Int)
    (alpha beta : Int) : Option Int × Int × Int :=
  if active = true then
    if flag = Flag.EXACTBOUND then (some ttScore, alpha, beta)
    else
      let alpha' := if flag = Flag.LOWERBOUND then max alpha ttScore else alpha
      let beta' := if flag = Flag.UPPERBOUND then min beta ttScore else beta
      if alpha' ≥ beta' then (some ttScore, alpha', beta') else (none, alpha', beta')
  else (none, alpha, beta)

/-- Fields of a probed TT entry, with the miss defaults of `absearch`. -/
def ttMoveOf : Option TEntry → Move
  | some t => t.move
  | none => NO_MOVE

def ttScoreOf (tte? : Option TEntry) (ply : Int) : Int :=
  match tte? with
  | some t => scoreFromTT t.score ply
  | none => VALUE_NONE

def tteDepthOf : Option TEntry → Int
  | some t => t.depth
  | none => 0

def tteFlagOf : Option TEntry → Flag
  | some t => t.flag
  | none => Flag.NONEBOUND

def tteScoreRawOf : Option TEntry → Int
  | some t => t.score
  | none => 0

/-- The max-ply return value of `absearch` (line 227). -/
def maxPlyVal {P : Type} (env : Env P) (inCheck : Bool) (pos : P) : Int :=
  if inCheck = false then env.evaluation pos else 0

/-- Mate-distance pruning of alpha (line 243). -/
def mdAlpha (node : NodeK) (alpha ply : Int) : Int :=
  if node ≠ NodeK.Root then max alpha (mated_in ply) else alpha

/-- Mate-distance pruning of beta (line 244). -/
def mdBeta (node : NodeK) (beta ply : Int) : Int :=
  if node ≠ NodeK.Root then min beta (mate_in (ply + 1)) else beta

/-- Check extension (lines 253-254). -/
def checkExt (inCheck : Bool) (depth : Int) : Int :=
  if inCheck = true then depth + 1 else depth

/-- First IIR reduction (lines 376-377). -/
def iir1 (ttHit : Bool) (depth : Int) : Int :=
  if depth ≥ 3 ∧ ttHit = false then depth - 1 else depth

/-- Second IIR reduction (lines 379-380). -/
def iir2 (pv ttHit : Bool) (depth : Int) : Int :=
  if pv = true ∧ ttHit = false then depth - 1 else depth

/-- Static evaluation at an absearch node (line 365): the raw TT score
on a hit, else a fresh evaluation. -/
def staticEvalOf (ttHit : Bool) (raw fallback : Int) : Int :=
  if ttHit = true then raw else fallback

/-- Null-move cutoff score (lines 422-424): mate-range scores are
clamped to beta. -/
def nullScore (score beta : Int) : Int :=
  if score ≥ VALUE_TB_WIN_IN_MAX_PLY then beta else score

/-- The non-root draw detection of `absearch` (lines 234-241):
repetition gives the randomised draw score, `isDrawn` a mate-in or 0. -/
def absearchDraw {P : Type} (env : Env P) (node : NodeK) (pos : P)
    (inCheck : Bool) (ply : Int) (nodes : Nat) : Option Int :=
  if node = NodeK.Root then none
  else if env.isRepetition pos (1 + cond (pvBool node) 1 0) then
    some (-1 + ((nodes &&& 2 : Nat) : Int))
  else match env.isDrawn pos inCheck with
    | DrawResult.LOST => some (mated_in ply)
    | DrawResult.DRAWN => some 0
    | DrawResult.RNONE => none

/-- The tablebase probe of `absearch` (lines 310-354), run when
`active` (non-root, normal search, TB in use): maps the WDL result to
a mate-distance score and flag, stores and returns on a cutoff or an
exact result, otherwise records `best`/`maxValue`/`alpha` for PV
nodes.  Result: `(early, best, maxValue, alpha, state)` with `best`
defaulting to `-VALUE_INFINITE` and `maxValue` to `VALUE_MATE`. -/
def absearchTB {P : Type} (env : Env P) (active : Bool) (node : NodeK)
    (ply depth alpha beta : Int) (key : Nat) (pos : P) (st : SState) :
    Option Int × Int × Int × Int × SState :=
  if active = true then
    let tbRes := env.probeTB pos
    if tbRes ≠ VALUE_NONE then
      let trip : Int × Flag :=
        if tbRes = VALUE_TB_WIN then (VALUE_MATE_IN_PLY - ply - 1, Flag.LOWERBOUND)
        else if tbRes = VALUE_TB_LOSS then
          (VALUE_MATED_IN_PLY + ply + 1, Flag.UPPERBOUND)
        else (0, Flag.EXACTBOUND)
      if trip.2 = Flag.EXACTBOUND ∨ (trip.2 = Flag.LOWERBOUND ∧ trip.1 ≥ beta) ∨
          (trip.2 = Flag.UPPERBOUND ∧ trip.1 ≤ alpha) then
        (some trip.1, -VALUE_INFINITE, VALUE_MATE, alpha,
          storeEntry st (depth + 6) (scoreToTT trip.1 ply) trip.2 key NO_MOVE ply)
      else if pvBool node = true ∧ trip.2 = Flag.LOWERBOUND then
        (none, trip.1, VALUE_MATE, max alpha trip.1, st)
      else if pvBool node = true then (none, -VALUE_INFINITE, trip.1, alpha, st)
      else (none, -VALUE_INFINITE, VALUE_MATE, alpha, st)
    else (none, -VALUE_INFINITE, VALUE_MATE, alpha, st)
  else (none, -VALUE_INFINITE, VALUE_MATE, alpha, st)

/-- The TT store at the end of `absearch` (lines 640-644): bound LOWER
on a cutoff, EXACT for a PV node with a best move, else UPPER; skipped
when an excluded move is set, and in normal searches when the stop flag
is set. -/
def absearchTTStore (cfg : SConfig) (excludedMove : Move) (depth ply best beta : Int)
    (node : NodeK) (bestMove : Move) (key : Nat) (st : SState) : SState :=
  let b : Flag :=
    if best ≥ beta then Flag.LOWERBOUND
    else if pvBool node = true ∧ bestMove ≠ NO_MOVE then Flag.EXACTBOUND
    else Flag.UPPERBOUND
  if excludedMove = NO_MOVE ∧ (cfg.normalSearch = false ∨ st.stopped = false) then
    storeEntry st depth (scoreToTT best ply) b key bestMove ply
  else st

/-- The singular-extension block (lines 490-512), run when `doSing`
(the guard of line 491-498) holds: a verification search with the move
excluded, below `singularBeta = ttScore - 3·depth` at depth
`(depth-1)/2`; a fail-low extends by one, else `singularBeta ≥ beta`
multi-cuts.  Result: `(extension, multi-cut return, state)`. -/
def absearchSingular (childSing : Int → Int → Int → SState → Int × SState)
    (doSing : Bool) (ttScore depth beta : Int) (ply : Int) (m : Move)
    (st : SState) : Int × Option Int × SState :=
  if doSing = true then
    let singularBeta := ttScore - 3 * depth
    let singularDepth := Int.tdiv (depth - 1) 2
    let r := childSing singularDepth (singularBeta - 1) singularBeta
      (setExcluded st ply m)
    let st' := setExcluded r.2 ply NO_MOVE
    if r.1 < singularBeta then (1, none, st')
    else if singularBeta ≥ beta then (0, some singularBeta, st')
    else (0, none, st')
  else (0, none, st)

/-- LMR, the zero-window research and the PVS research for one move
(lines 536-578).  `score0` is the C++ `score` variable's value from
the previous iteration (read when both LMR and the research are
skipped), `reds` is `reductions[depth][madeMoves]`, `idmod` is
`id % 2`.  Returns the move's final score and state. -/
def lmrStep {P : Type}
    (childNonPV : Int → Int → Int → P → SState → Int × SState)
    (node : NodeK) (madeMoves : Nat) (improving : Bool) (idmod : Nat)
    (reds : Int) (depth newDepth alpha : Int) (inCheck : Bool)
    (score0 : Int) (pos' : P) (st : SState) : Int × Bool × SState :=
  if depth ≥ 3 ∧ inCheck = false ∧ (madeMoves : Int) > 3 + 2 * pvNum node then
    let rdepth := reds
    let rdepth := rdepth - (idmod : Int)
    let rdepth := rdepth + cond improving 1 0
    let rdepth := rdepth - pvNum node
    let rdepth := min (max (newDepth - rdepth) 1) (newDepth + 1)
    let r := childNonPV rdepth (-alpha - 1) (-alpha) pos' st
    (-r.1, decide (-r.1 > alpha ∧ rdepth < newDepth), r.2)
  else (score0, decide (pvBool node = false ∨ madeMoves > 1), st)

def absearchMoveSearch {P : Type}
    (childNonPV childPV : Int → Int → Int → P → SState → Int × SState)
    (node : NodeK) (madeMoves : Nat) (improving : Bool) (idmod : Nat)
    (reds : Int) (depth newDepth alpha beta : Int) (inCheck : Bool)
    (score0 : Int) (pos' : P) (st : SState) : Int × SState :=
  let lmr := lmrStep childNonPV node madeMoves improving idmod reds depth
    newDepth alpha inCheck score0 pos' st
  let fs : Int × SState :=
    if lmr.2.1 = true then
      let r := childNonPV newDepth (-alpha - 1) (-alpha) pos' lmr.2.2
      (-r.1, r.2)
    else (lmr.1, lmr.2.2)
  if pvBool node = true ∧ ((fs.1 > alpha ∧ fs.1 < beta) ∨ madeMoves = 1) then
    let r := childPV newDepth (-beta) (-alpha) pos' fs.2
    (-r.1, r.2)
  else fs

/-- Main-thread spent-effort accounting (lines 587-588). -/
def addEffort (cond : Bool) (m : Move) (delta : Int) (st : SState) : SState :=
  if cond = true then
    { st with spentEffort := fun f t =>
        if f = m.fromSq ∧ t = m.toSq then st.spentEffort m.fromSq m.toSq + delta
        else st.spentEffort f t }
  else st

/-- Result of the absearch move loop: `early` is the multi-cut return
from the singular-extension block (which bypasses the terminal cases
and the TT store); `done` carries the loop-final
`best, alpha, bestMove, madeMoves`. -/
inductive LoopRes where
  | early (s : Int)
  | done (best alpha : Int) (bestMove : Move) (madeMoves : Nat)

/-- The move loop of `Search::absearch` (lines 448-625).  `childNonPV`
and `childPV` are the recursive `absearch<NonPV>`/`absearch<PV>` calls
at the next ply, taking `(depth, alpha, beta, position, state)`;
`childSing` is the singular verification `absearch<NonPV>` at the same
ply and position, taking `(depth, alpha, beta, state)`.  The list is
the move-picker output; `madeMoves`, `quiets`, `best`, `alpha`,
`bestMove` and the C++ `score` variable (alive across iterations) are
loop-carried. -/
def absearchLoop {P : Type} (env : Env P)
    (childNonPV childPV : Int → Int → Int → P → SState → Int × SState)
    (childSing : Int → Int → Int → SState → Int × SState)
    (cfg : SConfig) (node : NodeK) (ply : Int) (pos : P)
    (inCheck improving : Bool) (depth beta : Int) (ttHit : Bool) (ttMove : Move)
    (ttScore tteDepth : Int) (tteFlag : Flag) (excludedMove : Move) :
    List Move → Nat → List Move → Int → Int → Move → Int → SState →
      LoopRes × SState
  | [], madeMoves, _, best, alpha, bestMove, _, st =>
    (LoopRes.done best alpha bestMove madeMoves, st)
  | m :: ms, madeMoves, quiets, best, alpha, bestMove, score, st =>
    if m = excludedMove then
      absearchLoop env childNonPV childPV childSing cfg node ply pos inCheck
        improving depth beta ttHit ttMove ttScore tteDepth tteFlag excludedMove
        ms madeMoves quiets best alpha bestMove score st
    else
      let madeMoves := madeMoves + 1
      -- capture = board.pieceAtB(to(move)) != None
      -- SEE pruning for captures (lines 465-471)
      if node ≠ NodeK.Root ∧ best > VALUE_TB_LOSS_IN_MAX_PLY ∧
          env.pieceTypeAt pos m.toSq ≠ PieceType.NONETYPE ∧ depth < 6 ∧
          env.see pos m (-(depth * 92)) = false then
        absearchLoop env childNonPV childPV childSing cfg node ply pos inCheck
          improving depth beta ttHit ttMove ttScore tteDepth tteFlag excludedMove
          ms madeMoves quiets best alpha bestMove score st
      -- late move pruning for quiets (lines 474-481)
      else if node ≠ NodeK.Root ∧ best > VALUE_TB_LOSS_IN_MAX_PLY ∧
          env.pieceTypeAt pos m.toSq = PieceType.NONETYPE ∧ inCheck = false ∧
          pvBool node = false ∧ m.promo = false ∧ depth ≤ 5 ∧
          (quiets.length : Int) > 4 + depth * depth then
        absearchLoop env childNonPV childPV childSing cfg node ply pos inCheck
          improving depth beta ttHit ttMove ttScore tteDepth tteFlag excludedMove
          ms madeMoves quiets best alpha bestMove score st
      -- SEE pruning for quiets (lines 482-485)
      else if node ≠ NodeK.Root ∧ best > VALUE_TB_LOSS_IN_MAX_PLY ∧
          env.pieceTypeAt pos m.toSq = PieceType.NONETYPE ∧ depth < 7 ∧
          env.see pos m (-(depth * 93)) = false then
        absearchLoop env childNonPV childPV childSing cfg node ply pos inCheck
          improving depth beta ttHit ttMove ttScore tteDepth tteFlag excludedMove
          ms madeMoves quiets best alpha bestMove score st
      else
        -- singular extension (lines 490-512): (extension, multi-cut, state)
        let sing := absearchSingular childSing
          (decide (node ≠ NodeK.Root ∧ depth ≥ 8 ∧ ttHit = true ∧ ttMove = m ∧
            excludedMove = NO_MOVE ∧ (ttScore.natAbs : Int) < 10000 ∧
            tteFlag.hasLower = true ∧ tteDepth ≥ depth - 3))
          ttScore depth beta ply m st
        match sing.2.1 with
        | some s => (LoopRes.early s, sing.2.2)
        | none =>
          let extension := sing.1
          let st := sing.2.2
          let newDepth := depth - 1 + extension
          -- (currmove info line: output only, not modelled)
          let st := { st with nodes := st.nodes + 1, searched := st.searched ++ [(ply, m)] }
          let pos' := env.makeMove pos m
          let nodeCount := st.nodes
          let st := setCurrentMove st ply m
          -- LMR, zero-window research, PVS research (lines 536-578)
          let pvs := absearchMoveSearch childNonPV childPV node madeMoves improving
            (cfg.id % 2) (env.reductions depth madeMoves) depth newDepth alpha
            beta inCheck score pos' st
          let score := pvs.1
          -- spent-effort accounting on the main thread (lines 587-588)
          let st := addEffort (decide (cfg.id = 0)) m
            ((pvs.2.nodes - nodeCount : Nat) : Int) pvs.2
          -- best / alpha / PV / cutoff (lines 593-624)
          if score > best then
            if score > alpha then
              let st := copyPv st ply m
              if score ≥ beta then
                (LoopRes.done score score m madeMoves,
                  updateAllHistories env pos ply m score beta depth quiets st)
              else
                absearchLoop env childNonPV childPV childSing cfg node ply pos
                  inCheck improving depth beta ttHit ttMove ttScore tteDepth
                  tteFlag excludedMove ms madeMoves
                  (if env.pieceTypeAt pos m.toSq = PieceType.NONETYPE then
                    quiets ++ [m] else quiets)
                  score score m score st
            else
              absearchLoop env childNonPV childPV childSing cfg node ply pos
                inCheck improving depth beta ttHit ttMove ttScore tteDepth
                tteFlag excludedMove ms madeMoves
                (if env.pieceTypeAt pos m.toSq = PieceType.NONETYPE then
                  quiets ++ [m] else quiets)
                score alpha bestMove score st
          else
            absearchLoop env childNonPV childPV childSing cfg node ply pos
              inCheck improving depth beta ttHit ttMove ttScore tteDepth
              tteFlag excludedMove ms madeMoves
              (if env.pieceTypeAt pos m.toSq = PieceType.NONETYPE then
                quiets ++ [m] else quiets)
              best alpha bestMove score st

/-- `Search::absearch` from the `moves:` label on (lines 430-648): run
the move loop, then the checkmate/stalemate/excluded terminal cases,
the PV clamp against the tablebase `maxValue`, and the TT store.  A
multi-cut early return from the singular block bypasses all of these. -/
def absearchMoves {P : Type} (env : Env P)
    (childNonPV childPV : Int → Int → Int → P → SState → Int × SState)
    (childSing : Int → Int → Int → SState → Int × SState)
    (cfg : SConfig) (node : NodeK) (ply : Int) (pos : P)
    (inCheck improving : Bool) (depth alpha beta best maxValue : Int)
    (ttHit : Bool) (ttMove : Move) (ttScore tteDepth : Int) (tteFlag : Flag)
    (excludedMove : Move) (st : SState) : Int × SState :=
  let lr := absearchLoop env childNonPV childPV childSing cfg node ply pos inCheck
    improving depth beta ttHit ttMove ttScore tteDepth tteFlag excludedMove
    (env.amoves pos) 0 [] best alpha NO_MOVE VALUE_NONE st
  match lr.1 with
  | LoopRes.early s => (s, lr.2)
  | LoopRes.done best alpha bestMove madeMoves =>
    let best := if madeMoves = 0 then
        (if excludedMove ≠ NO_MOVE then alpha
         else if inCheck = true then mated_in ply else 0)
      else best
    let best := if pvBool node = true then min best maxValue else best
    (best, absearchTTStore cfg excludedMove depth ply best beta node bestMove
      (env.hashKey pos) lr.2)

/-- `Search::absearch` after the tablebase probe (lines 357-428 and the
jump to the move loop): static evaluation and `improving`, IIR, the
drops to qsearch, razoring, reverse futility and null-move pruning,
then `absearchMoves`.  `qchild` is the qsearch call at this ply and
position (taking `pv, alpha, beta, state`); the three absearch child
callbacks are as in `absearchMoves`. -/
def absearchRest {P : Type} (env : Env P) (cfg : SConfig)
    (qchild : Bool → Int → Int → SState → Int × SState)
    (childNonPV childPV : Int → Int → Int → P → SState → Int × SState)
    (childSing : Int → Int → Int → SState → Int × SState)
    (node : NodeK) (ply depth alpha beta : Int) (pos : P) (inCheck : Bool)
    (ttHit : Bool) (ttMove : Move) (ttScore tteDepth : Int) (tteFlag : Flag)
    (tteScoreRaw : Int) (excludedMove : Move) (color : Color)
    (best maxValue : Int) (st : SState) : Int × SState :=
  if inCheck = true then
    absearchMoves env childNonPV childPV childSing cfg node ply pos inCheck
      false depth alpha beta best maxValue ttHit ttMove ttScore tteDepth
      tteFlag excludedMove st
  else
    let staticEval := staticEvalOf ttHit tteScoreRaw (env.evaluation pos)
    let st := setEval st ply staticEval
    let improving := improvingOf staticEval ((st.stack (ply - 2)).eval)
    if node = NodeK.Root then
      absearchMoves env childNonPV childPV childSing cfg node ply pos inCheck
        improving depth alpha beta best maxValue ttHit ttMove ttScore tteDepth
        tteFlag excludedMove st
    else
      -- IIR (lines 376-383)
      let depth := iir1 ttHit depth
      let depth := iir2 (pvBool node) ttHit depth
      if depth ≤ 0 then
        qchild true alpha beta st
      else if pvBool node = true then
        absearchMoves env childNonPV childPV childSing cfg node ply pos inCheck
          improving depth alpha beta best maxValue ttHit ttMove ttScore
          tteDepth tteFlag excludedMove st
      -- razoring (line 393)
      else if depth < 3 ∧ staticEval + 129 < alpha then
        qchild false alpha beta st
      -- reverse futility pruning (lines 399-401)
      else if (beta.natAbs : Int) < VALUE_TB_WIN_IN_MAX_PLY ∧ depth < 7 ∧
          staticEval - 64 * depth + 71 * cond improving 1 0 ≥ beta then
        (beta, st)
      -- null-move pruning (lines 407-428)
      else if env.nonPawnMat pos color = true ∧ excludedMove = NO_MOVE ∧
          (st.stack (ply - 1)).currentmove ≠ NULL_MOVE ∧ depth ≥ 3 ∧
          staticEval ≥ beta then
        let R := 5 + min 4 (Int.tdiv depth 5) +
          min 3 (Int.tdiv (staticEval - beta) 214)
        let st := setCurrentMove st ply NULL_MOVE
        let r := childNonPV (depth - R) (-beta) (-beta + 1) (env.makeNull pos)
          st
        if -r.1 ≥ beta then
          (nullScore (-r.1) beta, r.2)
        else
          absearchMoves env childNonPV childPV childSing cfg node ply pos
            inCheck improving depth alpha beta best maxValue ttHit ttMove
            ttScore tteDepth tteFlag excludedMove r.2
      else
        absearchMoves env childNonPV childPV childSing cfg node ply pos inCheck
          improving depth alpha beta best maxValue ttHit ttMove ttScore
          tteDepth tteFlag excludedMove st

/-- `Search::absearch` (lines 205-648), fuelled.  The preamble: limit
check, max-ply, PV-length reset, draw detection and mate-distance
pruning, check extension, drop to qsearch, TT probe and bound
adjustment, tablebase probe; then `absearchRest`.
The `currmove` info line and the tbhits counter are output-only and not
modelled. -/
def absearch {P : Type} (env : Env P) (cfg : SConfig) :
    Nat → NodeK → Int → Int → Int → Int → P → SState → Int × SState
  | 0, _, _, _, _, _, _, st => (0, st)
  | fuel + 1, node, depth, alpha, beta, ply, pos, st =>
    let lr := limitReached cfg env st
    if lr.1 then (0, lr.2)
    else
      let st := lr.2
      let color := env.sideToMove pos
      let excludedMove := (st.stack ply).excludedMove
      let inCheck := env.inCheck pos
      if ply ≥ MAX_PLY then
        (maxPlyVal env inCheck pos, st)
      else
        let st := setPvLenInit ply st
        match absearchDraw env node pos inCheck ply st.nodes with
        | some s => (s, st)
        | none =>
          let alpha := mdAlpha node alpha ply
          let beta := mdBeta node beta ply
          if node ≠ NodeK.Root ∧ alpha ≥ beta then (alpha, st)
          else
            let depth := checkExt inCheck depth
            if depth ≤ 0 then
              qsearch env cfg fuel (decide (node = NodeK.PV)) ply alpha beta pos st
            else
              let st := setExcluded st (ply + 1) NO_MOVE
              let st := updSeldepth (decide (pvBool node = true ∧ ply > st.seldepth))
                ply st
              let tte? := env.probeTT pos
              let ttHit := tte?.isSome
              let ttMove := ttMoveOf tte?
              let ttScore := ttScoreOf tte? ply
              let tteDepth := tteDepthOf tte?
              let tteFlag := tteFlagOf tte?
              let tteScoreRaw := tteScoreRawOf tte?
              let ttActive : Bool := decide (node ≠ NodeK.Root ∧
                excludedMove = NO_MOVE ∧ node = NodeK.NonPV ∧ ttHit = true ∧
                tteDepth ≥ depth ∧ (st.stack (ply - 1)).currentmove ≠ NULL_MOVE ∧
                ttScore ≠ VALUE_NONE)
              let adj := absearchTTAdj ttActive tteFlag ttScore alpha beta
              match adj.1 with
              | some s => (s, st)
              | none =>
                let alpha := adj.2.1
                let beta := adj.2.2
                let tb := absearchTB env
                  (decide (node ≠ NodeK.Root ∧ cfg.normalSearch = true ∧
                    cfg.useTB = true))
                  node ply depth alpha beta (env.hashKey pos) pos st
                match tb.1 with
                | some s => (s, tb.2.2.2.2)
                | none =>
                  absearchRest env cfg
                    (fun pv a b s => qsearch env cfg fuel pv ply a b pos s)
                    (fun d a b p s =>
                      absearch env cfg fuel NodeK.NonPV d a b (ply + 1) p s)
                    (fun d a b p s =>
                      absearch env cfg fuel NodeK.PV d a b (ply + 1) p s)
                    (fun d a b s =>
                      absearch env cfg fuel NodeK.NonPV d a b ply pos s)
                    node ply depth tb.2.2.2.1 beta pos inCheck ttHit ttMove
                    ttScore tteDepth tteFlag tteScoreRaw excludedMove color
                    tb.2.1 tb.2.2.1 tb.2.2.2.2

/-! ### Aspiration windows (src/src/search.cpp lines 650-712) -/

/-- Oracle for one iterative-deepening depth as seen by
`Search::aspirationSearch`: the i-th `absearch<Root>` call's return
value, and the stop flag / node counter as loaded right after it. -/
structure AspEnv where
  rootResult : Nat → Int
  stoppedAt : Nat → Bool
  nodesAt : Nat → Nat

/-- The retry loop of `Search::aspirationSearch` (lines 671-705),
fuelled: `none` means the fuel ran out before the loop exited.  Bounds
beyond ±3500 are slackened to ±`VALUE_INFINITE`; a fail-low sets
`beta = (alpha+beta)/2`, `alpha = max(alpha-delta, -INF)`,
`delta += delta/2`; a fail-high sets `beta = min(beta+delta, INF)`,
`delta += delta/2` (C++ `/` is `Int.tdiv`). -/
def aspLoop (A : AspEnv) (cfg : SConfig) :
    Nat → Nat → Int → Int → Int → Option Int
  | 0, _, _, _, _ => none
  | fuel + 1, i, alpha, beta, delta =>
    let alpha := if alpha < -3500 then -VALUE_INFINITE else alpha
    let beta := if beta > 3500 then VALUE_INFINITE else beta
    let result := A.rootResult i
    if A.stoppedAt i then some 0
    else if cfg.id = 0 ∧ cfg.limitNodes ≠ 0 ∧ A.nodesAt i ≥ cfg.limitNodes then some 0
    else if result ≤ alpha then
      aspLoop A cfg fuel (i + 1) (max (alpha - delta) (-VALUE_INFINITE))
        (Int.tdiv (alpha + beta) 2) (delta + Int.tdiv delta 2)
    else if result ≥ beta then
      aspLoop A cfg fuel (i + 1) alpha (min (beta + delta) VALUE_INFINITE)
        (delta + Int.tdiv delta 2)
    else some result

/-- `Search::aspirationSearch` window set-up (lines 652-669): full
window below depth 9, else `prevEval ± 30` with `delta = 30`. -/
def aspirationSearch (A : AspEnv) (cfg : SConfig) (fuel : Nat) (depth : Int)
    (prevEval : Int) : Option Int :=
  if depth ≥ 9 then aspLoop A cfg fuel 0 (prevEval - 30) (prevEval + 30) 30
  else aspLoop A cfg fuel 0 (-VALUE_INFINITE) VALUE_INFINITE 30

/-- Progress measure on the alpha bound: distance of the (slackened)
lower window bound from `-VALUE_INFINITE`. -/
def normA (alpha : Int) : Nat :=
  if alpha < -3500 then 0 else (alpha + 32001).toNat

/-- Progress measure on the beta bound: distance of the (slackened)
upper window bound from `VALUE_INFINITE`. -/
def normB (beta : Int) : Nat :=
  if beta > 3500 then 0 else (32001 - beta).toNat

/-! ### UCI score output (src/src/helper.cpp, outputScore) -/

/-- `outputScore` from helper.cpp lines 181-192.  C++ `abs` is `natAbs`,
`/ 2` is truncation toward zero (`Int.tdiv`) and `& 1` on two's
complement ints is the nonnegative remainder (`Int.emod`). -/
def outputScore (score : Int) : String :=
  let score := if score.natAbs ≤ 4 then 0 else score
  if score ≥ VALUE_MATE_IN_PLY then
    "mate " ++ toString (Int.tdiv (VALUE_MATE - score) 2 + Int.emod (VALUE_MATE - score) 2)
  else if score ≤ VALUE_MATED_IN_PLY then
    "mate " ++ toString (-(Int.tdiv (VALUE_MATE + score) 2) + Int.emod (VALUE_MATE + score) 2)
  else
    "cp " ++ toString score

/-! ### Concrete instances used by witnesses and counterexamples -/

/-- A fresh search state: counters zero, stop flag clear, logs empty,
stack as initialised by `iterativeDeepening`. -/
def st0 : SState :=
  ⟨0, false, 0, 0, [], [], initStack, fun _ => NO_MOVE, fun _ => NO_MOVE,
    fun _ _ _ => 0, fun _ _ => 0, fun _ _ => NO_MOVE, fun _ => 0, 0⟩

/-- Datagen-style configuration (`normal_search` false) for a helper
worker, no limits. -/
def cfgDatagen : SConfig := ⟨false, 1, false, 0, 0⟩

/-- Normal-search configuration for the main worker, no limits. -/
def cfgMain : SConfig := ⟨true, 0, false, 0, 0⟩

/-- The capture move of the delta-pruning scenario. -/
def mC5 : Move := ⟨1, 9, false, 0⟩

/-- Concrete environment for the delta-pruning scenario: the side to
move is not in check, has non-pawn material, and stands at evaluation
-31770 (below `VALUE_TB_LOSS_IN_MAX_PLY`); the single quiescence
candidate is the capture `mC5` of a pawn worth 100. -/
def envC5 : Env Nat where
  sideToMove := fun _ => Color.white
  inCheck := fun _ => false
  isRepetition := fun _ _ => false
  isDrawn := fun _ _ => DrawResult.RNONE
  evaluation := fun p => if p = 0 then -31770 else 31500
  hashKey := fun p => p
  probeTT := fun _ => none
  qmoves := fun p => if p = 0 then [mC5] else []
  amoves := fun _ => []
  pieceTypeAt := fun _ sq => if sq = 9 then PieceType.PAWN else PieceType.NONETYPE
  pieceValEG := fun _ => 100
  see := fun _ _ _ => true
  nonPawnMat := fun _ _ => true
  makeMove := fun p _ => p + 1
  makeNull := fun p => p + 1
  probeTB := fun _ => VALUE_NONE
  reductions := fun _ _ => 0
  elapsed := fun _ => 0

end Smallbrain

namespace Smallbrain

/-! ### Claim C1: TT score round trip -/

/-- C1 counterexample: the round-trip law in the order stated by the
spec, `scoreToTT (scoreFromTT x ply) ply = x`, fails at the mate-range
boundary `x = VALUE_MATE_IN_PLY`, `ply = 1` (a ply inside
`[0, MAX_PLY)`): unstacking the ply drops the score out of the mate
range, and re-stacking then leaves it unchanged. -/
theorem scoreToTT_scoreFromTT_not_id :
    0 ≤ (1 : Int) ∧ (1 : Int) < MAX_PLY ∧
      scoreToTT (scoreFromTT VALUE_MATE_IN_PLY 1) 1 ≠ VALUE_MATE_IN_PLY := by
  refine ⟨by norm_num, by decide, ?_⟩
  decide

/-- C1 (amended): the round trip holds in store-then-load order: for
every score `x` and every ply in `[0, MAX_PLY)`, loading what a TT
store wrote recovers the score, `scoreFromTT (scoreToTT x ply) ply = x`.
(The spec stated the composition in the opposite order.) -/
theorem scoreFromTT_scoreToTT_id (x : Int) (ply : Int)
    (hply0 : 0 ≤ ply) (hply : ply < MAX_PLY) :
    scoreFromTT (scoreToTT x ply) ply = x := by
  simp only [scoreToTT, scoreFromTT, VALUE_MATE_IN_PLY, VALUE_MATED_IN_PLY,
    VALUE_MATE, MAX_PLY] at *
  split_ifs <;> omega

/-- Witness for the amended C1 round trip at a concrete mate score and
ply. -/
theorem scoreFromTT_scoreToTT_id_witness :
    scoreFromTT (scoreToTT 31950 3) 3 = 31950 :=
  scoreFromTT_scoreToTT_id 31950 3 (by norm_num) (by decide)

/-! ### Claim C10: `outputScore` rounding to cp 0 -/

/-- C10: for every score of magnitude at most 4, `outputScore` prints
`"cp 0"`: helper.cpp first rounds `|score| <= 4` down to 0, and 0 is in
neither mate range. -/
theorem outputScore_small_cp_zero (s : Int) (h : s.natAbs ≤ 4) :
    outputScore s = "cp 0" := by
  unfold outputScore
  rw [if_pos h]
  rfl

/-- Witness for C10 at `s = -3`. -/
theorem outputScore_small_cp_zero_witness : outputScore (-3) = "cp 0" :=
  outputScore_small_cp_zero (-3) (by decide)

/-! ### Claim C8: limitReached and worker ids -/

/-- C8: a worker with `id ≠ 0` gets `true` from `limitReached` exactly
when the search is normal and the shared stop flag is set, and its
state (node/time counters) is untouched; the main worker, past the
stop/node checks, on `--checkTime` underflow resets `checkTime` to
2047 and then returns whether a nonzero `limit.maximum` is reached by
the wall clock. -/
theorem limitReached_spec {P : Type} (cfg : SConfig) (env : Env P) (st : SState) :
    (cfg.id ≠ 0 →
      (limitReached cfg env st).1 = (cfg.normalSearch && st.stopped) ∧
      (limitReached cfg env st).2 = st) ∧
    (cfg.id = 0 → ¬(cfg.normalSearch ∧ st.stopped) →
      ¬(cfg.limitNodes ≠ 0 ∧ st.nodes ≥ cfg.limitNodes) →
      st.checkTime - 1 ≤ 0 →
      (limitReached cfg env st).2.checkTime = 2047 ∧
      (limitReached cfg env st).1 =
        (decide (cfg.limitTimeMax ≠ 0) && decide (env.elapsed st.tick ≥ cfg.limitTimeMax))) := by
  unfold limitReached
  constructor
  · intro hid
    by_cases hns : cfg.normalSearch ∧ st.stopped
    · rw [if_pos hns]
      simp [hns.1, hns.2]
    · rw [if_neg hns, if_pos hid]
      refine ⟨?_, rfl⟩
      rcases Bool.eq_false_or_eq_true cfg.normalSearch with h | h <;>
        rcases Bool.eq_false_or_eq_true st.stopped with h' | h' <;>
          simp [h, h'] at hns ⊢
  · intro hid hns hnode hct
    rw [if_neg hns, if_neg (by omega), if_neg hnode, if_neg (by omega)]
    by_cases htm : cfg.limitTimeMax ≠ 0
    · rw [if_pos htm]
      by_cases hms : env.elapsed st.tick ≥ cfg.limitTimeMax
      · rw [if_pos hms]
        simp [htm, hms]
      · rw [if_neg hms]
        simp [htm, hms]
    · rw [if_neg htm]
      simp [htm]

/-- Witness for C8 at a concrete helper-worker state: with `id = 3`,
a normal search and the stop flag clear, `limitReached` returns
`false` and leaves the state unchanged. -/
theorem limitReached_spec_witness :
    (limitReached (P := Unit)
      ⟨true, 3, false, 0, 0⟩
      ⟨fun _ => Color.white, fun _ => false, fun _ _ => false,
        fun _ _ => DrawResult.RNONE, fun _ => 0, fun _ => 0, fun _ => none,
        fun _ => [], fun _ => [], fun _ _ => PieceType.NONETYPE, fun _ => 0,
        fun _ _ _ => true, fun _ _ => true, fun p _ => p, fun p => p,
        fun _ => VALUE_NONE, fun _ _ => 0, fun _ => 0⟩
      ⟨0, false, 5, 0, [], [], initStack, fun _ => NO_MOVE, fun _ => NO_MOVE,
        fun _ _ _ => 0, fun _ _ => 0, fun _ _ => NO_MOVE, fun _ => 0, 0⟩).1
      = (true && false) :=
  ((limitReached_spec _ _ _).1 (by decide)).1

/-! ### Claim C4: stack-frame sentinels and the improving boolean -/

/-- C4 counterexample: the claim says the sentinel initialisation makes
`improving` false at plies 0 and 1; in fact iterativeDeepening
initialises `eval = 0` (not `VALUE_NONE`) on frames -1 and -2, so at
ply 0 the `improving` boolean of absearch is `staticEval > 0`, which
is `true` for `staticEval = 1`. -/
theorem improving_at_ply0_true :
    (initStack (0 - 2)).eval ≠ VALUE_NONE ∧
    improvingOf 1 ((initStack (0 - 2)).eval) = true := by
  constructor
  · decide
  · decide

/-- C4 (amended): the frames below ply 0 are initialised with
`eval = 0` (a valid score, not the `VALUE_NONE` sentinel), so
`improving = staticEval > eval[ply-2]` is taken whenever
`eval[ply-2] ≠ VALUE_NONE` (and is false on `VALUE_NONE`), and at
plies 0 and 1 it evaluates to `staticEval > 0` rather than `false`. -/
theorem improving_sentinel_amended :
    (∀ i : Int, (initStack i).eval = 0) ∧
    (∀ se e : Int, e = VALUE_NONE → improvingOf se e = false) ∧
    (∀ se e : Int, e ≠ VALUE_NONE → improvingOf se e = decide (e < se)) ∧
    (∀ se : Int, improvingOf se ((initStack (0 - 2)).eval) = decide (0 < se)) ∧
    (∀ se : Int, improvingOf se ((initStack (1 - 2)).eval) = decide (0 < se)) := by
  refine ⟨fun i => rfl, fun se e he => ?_, fun se e he => ?_, fun se => ?_, fun se => ?_⟩
  · simp [improvingOf, he]
  · simp [improvingOf, he]
  · show improvingOf se 0 = decide (0 < se)
    simp [improvingOf, VALUE_NONE]
  · show improvingOf se 0 = decide (0 < se)
    simp [improvingOf, VALUE_NONE]

/-- Witness for the amended C4: at ply 0 with `staticEval = 5`,
`improving` computes to `true` (= `0 < 5`); the `VALUE_NONE` guard
branch gives `false`. -/
theorem improving_sentinel_amended_witness :
    improvingOf 5 ((initStack (0 - 2)).eval) = decide ((0 : Int) < 5) ∧
    improvingOf 5 VALUE_NONE = false :=
  ⟨improving_sentinel_amended.2.2.2.1 5,
   improving_sentinel_amended.2.1 5 VALUE_NONE rfl⟩

/-! ### Claims C2 and C5: quiescence stores and delta pruning -/

/-- `limitReached` never touches the TT-store trace. -/
lemma limitReached_trace {P : Type} (cfg : SConfig) (env : Env P) (st : SState) :
    ((limitReached cfg env st).2).trace = st.trace := by
  unfold limitReached
  split_ifs <;> rfl

/-- After `limitReached` returns `false` in a normal search, the stop
flag is clear (it can only be set together with a `true` return). -/
lemma limitReached_stopped_false {P : Type} (cfg : SConfig) (env : Env P)
    (st : SState) (hn : cfg.normalSearch = true)
    (h : (limitReached cfg env st).1 = false) :
    ((limitReached cfg env st).2).stopped = false := by
  unfold limitReached at h ⊢
  split_ifs at h ⊢ with h1 h2 h3 h4 h5 h6
  all_goals
    rcases Bool.eq_false_or_eq_true st.stopped with hs | hs <;> simp_all

/-- Trace extension through the quiescence move loop: if every child
call only appends records satisfying `G`, so does the loop. -/
lemma qsearchLoop_trace_mono {P : Type} (env : Env P)
    (child : Int → Int → P → SState → Int × SState) (G : StoreRec → Prop)
    (ply : Int) (pos : P) (inCheck : Bool) (color : Color) (beta : Int)
    (hchild : ∀ a b p (s : SState), ∀ rec ∈ ((child a b p s).2).trace,
      rec ∈ s.trace ∨ G rec) :
    ∀ (moves : List Move) (bestValue alpha : Int) (bestMove : Move) (st : SState),
      ∀ rec ∈ ((qsearchLoop env child ply pos inCheck color beta moves bestValue
          alpha bestMove st).2.2.2).trace, rec ∈ st.trace ∨ G rec := by
  intro moves
  induction moves with
  | nil =>
    intro bV a bM st rec hrec
    exact Or.inl hrec
  | cons m ms IH =>
    intro bV a bM st rec hrec
    simp only [qsearchLoop] at hrec
    split at hrec
    · exact IH _ _ _ _ rec hrec
    · split at hrec
      · exact IH _ _ _ _ rec hrec
      · split at hrec
        · split at hrec
          · split at hrec
            · rcases hchild _ _ _ _ rec hrec with h | h
              · exact Or.inl h
              · exact Or.inr h
            · rcases IH _ _ _ _ rec hrec with h | h
              · rcases hchild _ _ _ _ rec h with h' | h'
                · exact Or.inl h'
                · exact Or.inr h'
              · exact Or.inr h
          · rcases IH _ _ _ _ rec hrec with h | h
            · rcases hchild _ _ _ _ rec h with h' | h'
              · exact Or.inl h'
              · exact Or.inr h'
            · exact Or.inr h
        · rcases IH _ _ _ _ rec hrec with h | h
          · rcases hchild _ _ _ _ rec h with h' | h'
            · exact Or.inl h'
            · exact Or.inr h'
          · exact Or.inr h

/-- The quiescence TT store either leaves the trace alone (guard
blocked) or appends exactly one record with depth 0, the
LOWER-iff-`bestValue ≥ beta` flag, the frame's ply and the current stop
flag. -/
lemma qsearchTTStore_trace (cfg : SConfig) (ply : Int) (bestValue beta : Int)
    (key : Nat) (bestMove : Move) (st : SState) :
    ∀ rec ∈ (qsearchTTStore cfg ply bestValue beta key bestMove st).trace,
      rec ∈ st.trace ∨
        rec = ⟨0, scoreToTT bestValue ply,
          (if bestValue ≥ beta then Flag.LOWERBOUND else Flag.UPPERBOUND),
          key, bestMove, ply, st.stopped⟩ := by
  intro rec hrec
  simp only [qsearchTTStore, storeEntry] at hrec
  by_cases hg : cfg.normalSearch = false ∨ st.stopped = false
  · rw [if_pos hg] at hrec
    simpa only [List.mem_append, List.mem_singleton] using hrec
  · rw [if_neg hg] at hrec
    exact Or.inl hrec

/-- Every record a quiescence search appends to the trace has depth 0,
a non-EXACT flag, and the ply of a frame at or below the call. -/
lemma qsearch_trace_aux {P : Type} (env : Env P) (cfg : SConfig) :
    ∀ (fuel : Nat) (pv : Bool) (ply alpha beta : Int) (pos : P) (st : SState),
      ∀ rec ∈ ((qsearch env cfg fuel pv ply alpha beta pos st).2).trace,
        rec ∈ st.trace ∨
          (rec.depth = 0 ∧ rec.flag ≠ Flag.EXACTBOUND ∧ ply ≤ rec.ply) := by
  intro fuel
  induction fuel with
  | zero =>
    intro pv ply alpha beta pos st rec hrec
    exact Or.inl hrec
  | succ fuel IH =>
    intro pv ply alpha beta pos st rec hrec
    simp only [qsearch] at hrec
    split at hrec
    · rw [limitReached_trace] at hrec
      exact Or.inl hrec
    · split at hrec
      · rw [limitReached_trace] at hrec
        exact Or.inl hrec
      · split at hrec
        · rw [limitReached_trace] at hrec
          exact Or.inl hrec
        · split at hrec
          · rw [limitReached_trace] at hrec
            exact Or.inl hrec
          · rw [limitReached_trace] at hrec
            exact Or.inl hrec
          · split at hrec
            · rw [limitReached_trace] at hrec
              exact Or.inl hrec
            · split at hrec
              · rw [limitReached_trace] at hrec
                exact Or.inl hrec
              · -- main branch: the move loop followed by the frame store
                have hloop := qsearchLoop_trace_mono env
                  (qsearch env cfg fuel pv (ply + 1))
                  (fun r => r.depth = 0 ∧ r.flag ≠ Flag.EXACTBOUND ∧ ply + 1 ≤ r.ply)
                  ply pos (env.inCheck pos) (env.sideToMove pos) beta
                  (fun a b p s r hr => IH pv (ply + 1) a b p s r hr)
                rcases qsearchTTStore_trace _ _ _ _ _ _ _ rec hrec with h | h
                · rcases hloop _ _ _ _ _ rec h with h' | h'
                  · rw [limitReached_trace] at h'
                    exact Or.inl h'
                  · exact Or.inr ⟨h'.1, h'.2.1, by omega⟩
                · subst h
                  refine Or.inr ⟨rfl, ?_, le_refl ply⟩
                  show (if _ ≥ beta then Flag.LOWERBOUND else Flag.UPPERBOUND) ≠ _
                  split <;> decide

/-- C2: every TT entry stored during a quiescence search (at any frame
of the recursion) has depth 0 and a LOWER or UPPER, never EXACT, bound;
and the entry the call itself stores (the unique new record stamped
with the call's own ply) has bound LOWER exactly when the returned
`bestValue ≥ beta`, and UPPER otherwise. -/
theorem qsearch_store_spec {P : Type} (env : Env P) (cfg : SConfig) (fuel : Nat)
    (pv : Bool) (ply alpha beta : Int) (pos : P) (st : SState) :
    ∀ rec ∈ ((qsearch env cfg fuel pv ply alpha beta pos st).2).trace,
      rec ∈ st.trace ∨
        (rec.depth = 0 ∧ rec.flag ≠ Flag.EXACTBOUND ∧ ply ≤ rec.ply ∧
          (rec.ply = ply →
            rec.flag =
              (if (qsearch env cfg fuel pv ply alpha beta pos st).1 ≥ beta
                then Flag.LOWERBOUND else Flag.UPPERBOUND))) := by
  match fuel with
  | 0 =>
    intro rec hrec
    exact Or.inl hrec
  | fuel + 1 =>
    intro rec hrec
    rcases hqe : qsearch env cfg (fuel + 1) pv ply alpha beta pos st with ⟨res, stq⟩
    rw [hqe] at hrec
    simp only [qsearch] at hqe
    split at hqe
    · injection hqe with h1 h2
      subst h1 h2
      rw [limitReached_trace] at hrec
      exact Or.inl hrec
    · split at hqe
      · injection hqe with h1 h2
        subst h1 h2
        rw [limitReached_trace] at hrec
        exact Or.inl hrec
      · split at hqe
        · injection hqe with h1 h2
          subst h1 h2
          rw [limitReached_trace] at hrec
          exact Or.inl hrec
        · split at hqe
          · injection hqe with h1 h2
            subst h1 h2
            rw [limitReached_trace] at hrec
            exact Or.inl hrec
          · injection hqe with h1 h2
            subst h1 h2
            rw [limitReached_trace] at hrec
            exact Or.inl hrec
          · split at hqe
            · injection hqe with h1 h2
              subst h1 h2
              rw [limitReached_trace] at hrec
              exact Or.inl hrec
            · split at hqe
              · injection hqe with h1 h2
                subst h1 h2
                rw [limitReached_trace] at hrec
                exact Or.inl hrec
              · -- main branch
                injection hqe with h1 h2
                subst h1 h2
                have hloop := qsearchLoop_trace_mono env
                  (qsearch env cfg fuel pv (ply + 1))
                  (fun r => r.depth = 0 ∧ r.flag ≠ Flag.EXACTBOUND ∧ ply + 1 ≤ r.ply)
                  ply pos (env.inCheck pos) (env.sideToMove pos) beta
                  (fun a b p s r hr => by
                    rcases qsearch_trace_aux env cfg fuel pv (ply + 1) a b p s r hr
                      with h | h
                    · exact Or.inl h
                    · exact Or.inr h)
                rcases qsearchTTStore_trace _ _ _ _ _ _ _ rec hrec with h | h
                · rcases hloop _ _ _ _ _ rec h with h' | h'
                  · rw [limitReached_trace] at h'
                    exact Or.inl h'
                  · exact Or.inr ⟨h'.1, h'.2.1, by omega, fun hp => by omega⟩
                · subst h
                  refine Or.inr ⟨rfl, ?_, le_refl ply, fun _ => rfl⟩
                  show (if _ ≥ beta then Flag.LOWERBOUND else Flag.UPPERBOUND) ≠ _
                  split <;> decide

/-- Witness for C2: in the concrete delta-pruning environment the
quiescence call stores one entry; it has depth 0, bound UPPER (the
returned best value -31500 is below beta = -30999), and is stamped
with the call's ply 0. -/
theorem qsearch_store_spec_witness :
    (⟨0, -31500, Flag.UPPERBOUND, 0, NO_MOVE, 0, false⟩ : StoreRec) ∈ st0.trace ∨
      ((0 : Int) = 0 ∧ Flag.UPPERBOUND ≠ Flag.EXACTBOUND ∧ (0 : Int) ≤ 0 ∧
        ((0 : Int) = 0 → Flag.UPPERBOUND =
          (if (qsearch envC5 cfgDatagen 3 false 0 (-31000) (-30999) 0 st0).1
              ≥ -30999 then Flag.LOWERBOUND else Flag.UPPERBOUND))) :=
  qsearch_store_spec envC5 cfgDatagen 3 false 0 (-31000) (-30999) 0 st0
    ⟨0, -31500, Flag.UPPERBOUND, 0, NO_MOVE, 0, false⟩ (by decide)

/-- C5 counterexample: the claim's delta-pruning conditions (not in
check, non-promotion, non-pawn material, `bestValue + 400 +
endgame_value[captured] < alpha`) all hold for the capture `mC5` at
stand-pat `bestValue = -31770` and `alpha = max(-31000, -31770)`,
yet the move is searched (it appears in the searched log), because the
source prunes only under the additional guard
`bestValue > VALUE_TB_LOSS_IN_MAX_PLY`, which fails here. -/
theorem qsearch_delta_prune_counterexample :
    (envC5.inCheck 0 = false ∧ mC5.promo = false ∧
      envC5.nonPawnMat 0 (envC5.sideToMove 0) = true ∧
      envC5.pieceTypeAt 0 mC5.toSq ≠ PieceType.NONETYPE ∧
      envC5.evaluation 0 + 400 + envC5.pieceValEG (envC5.pieceTypeAt 0 mC5.toSq) <
        max (-31000) (envC5.evaluation 0) ∧
      ¬ envC5.evaluation 0 > VALUE_TB_LOSS_IN_MAX_PLY) ∧
    ((0 : Int), mC5) ∈
      ((qsearch envC5 cfgDatagen 3 false 0 (-31000) (-30999) 0 st0).2).searched := by
  refine ⟨⟨rfl, rfl, rfl, by decide, by decide, by decide⟩, ?_⟩
  decide

/-- C5 (amended): in the quiescence move loop a candidate capture is
delta-pruned — skipped with no effect on the loop state — whenever the
side to move is not in check, the move is not a promotion, the side
still has non-pawn material, `bestValue + 400 + endgame_value[captured]
< alpha`, and additionally (as the source requires)
`bestValue > VALUE_TB_LOSS_IN_MAX_PLY`. -/
theorem qsearch_delta_prune {P : Type} (env : Env P)
    (child : Int → Int → P → SState → Int × SState) (ply : Int) (pos : P)
    (inCheck : Bool) (color : Color) (beta : Int) (m : Move) (ms : List Move)
    (bestValue alpha : Int) (bestMove : Move) (st : SState)
    (hguard : bestValue > VALUE_TB_LOSS_IN_MAX_PLY)
    (hcap : env.pieceTypeAt pos m.toSq ≠ PieceType.NONETYPE)
    (hchk : inCheck = false)
    (hdelta : bestValue + 400 + env.pieceValEG (env.pieceTypeAt pos m.toSq) < alpha)
    (hpromo : m.promo = false)
    (hnpm : env.nonPawnMat pos color = true) :
    qsearchLoop env child ply pos inCheck color beta (m :: ms) bestValue alpha
        bestMove st =
      qsearchLoop env child ply pos inCheck color beta ms bestValue alpha
        bestMove st := by
  simp only [qsearchLoop]
  rw [if_pos ⟨hguard, hcap, hchk, hdelta, hpromo, hnpm⟩]

/-- Witness for the amended C5: a concrete delta-pruned capture is
skipped without effect. -/
theorem qsearch_delta_prune_witness :
    qsearchLoop envC5 (fun _ _ _ s => (0, s)) 0 0 false Color.white 100 [mC5]
        0 700 NO_MOVE st0 =
      qsearchLoop envC5 (fun _ _ _ s => (0, s)) 0 0 false Color.white 100 []
        0 700 NO_MOVE st0 :=
  qsearch_delta_prune envC5 _ 0 0 false Color.white 100 mC5 [] 0 700 NO_MOVE st0
    (by decide) (by decide) rfl (by decide) rfl rfl

/-! ### Claim C3: TT stores are skipped once the stop flag is set -/

lemma setFrame_trace (st : SState) (i : Int) (f : Frame → Frame) :
    (setFrame st i f).trace = st.trace := rfl

lemma setFrame_stopped (st : SState) (i : Int) (f : Frame → Frame) :
    (setFrame st i f).stopped = st.stopped := rfl

lemma copyPv_trace (st : SState) (ply : Int) (m : Move) :
    (copyPv st ply m).trace = st.trace := rfl

lemma updateAllHistories_trace {P : Type} (env : Env P) (pos : P) (ply : Int)
    (bestMove : Move) (best beta : Int) (depth : Int) (quiets : List Move)
    (st : SState) :
    (updateAllHistories env pos ply bestMove best beta depth quiets st).trace =
      st.trace := by
  unfold updateAllHistories
  split
  · rfl
  · split <;> rfl

lemma addEffort_trace (c : Bool) (m : Move) (d : Int) (st : SState) :
    (addEffort c m d st).trace = st.trace := by
  unfold addEffort
  split <;> rfl

/-- In a normal search, the quiescence TT store appends only records
stamped with a clear stop flag (the store guard blocks it otherwise). -/
lemma qsearchTTStore_trace_norm (cfg : SConfig) (ply bestValue beta : Int)
    (key : Nat) (bestMove : Move) (st : SState) (hn : cfg.normalSearch = true) :
    ∀ rec ∈ (qsearchTTStore cfg ply bestValue beta key bestMove st).trace,
      rec ∈ st.trace ∨ rec.stoppedAt = false := by
  intro rec hrec
  simp only [qsearchTTStore, storeEntry] at hrec
  by_cases hg : cfg.normalSearch = false ∨ st.stopped = false
  · rw [if_pos hg] at hrec
    rcases List.mem_append.mp hrec with h | h
    · exact Or.inl h
    · rcases List.mem_singleton.mp h with rfl
      refine Or.inr ?_
      show st.stopped = false
      rcases hg with hg | hg
      · rw [hn] at hg
        cases hg
      · exact hg
  · rw [if_neg hg] at hrec
    exact Or.inl hrec

/-- In a normal search, the absearch TT store appends only records
stamped with a clear stop flag. -/
lemma absearchTTStore_trace_norm (cfg : SConfig) (excludedMove : Move)
    (depth ply best beta : Int) (node : NodeK) (bestMove : Move) (key : Nat)
    (st : SState) (hn : cfg.normalSearch = true) :
    ∀ rec ∈ (absearchTTStore cfg excludedMove depth ply best beta node bestMove
        key st).trace,
      rec ∈ st.trace ∨ rec.stoppedAt = false := by
  intro rec hrec
  simp only [absearchTTStore, storeEntry] at hrec
  by_cases hg : excludedMove = NO_MOVE ∧ (cfg.normalSearch = false ∨ st.stopped = false)
  · rw [if_pos hg] at hrec
    rcases List.mem_append.mp hrec with h | h
    · exact Or.inl h
    · rcases List.mem_singleton.mp h with rfl
      refine Or.inr ?_
      show st.stopped = false
      rcases hg.2 with hg' | hg'
      · rw [hn] at hg'
        cases hg'
      · exact hg'
  · rw [if_neg hg] at hrec
    exact Or.inl hrec

/-- Trace extension through the singular-extension block. -/
lemma absearchSingular_trace
    (childSing : Int → Int → Int → SState → Int × SState) (doSing : Bool)
    (ttScore depth beta : Int) (ply : Int) (m : Move) (st : SState)
    (G : StoreRec → Prop)
    (hS : ∀ d a b (s : SState), ∀ rec ∈ ((childSing d a b s).2).trace,
      rec ∈ s.trace ∨ G rec) :
    ∀ rec ∈ ((absearchSingular childSing doSing ttScore depth beta ply m
        st).2.2).trace,
      rec ∈ st.trace ∨ G rec := by
  intro rec hrec
  simp only [absearchSingular] at hrec
  split at hrec
  · split at hrec
    · exact hS (Int.tdiv (depth - 1) 2) (ttScore - 3 * depth - 1)
        (ttScore - 3 * depth) (setExcluded st ply m) rec hrec
    · split at hrec
      · exact hS (Int.tdiv (depth - 1) 2) (ttScore - 3 * depth - 1)
          (ttScore - 3 * depth) (setExcluded st ply m) rec hrec
      · exact hS (Int.tdiv (depth - 1) 2) (ttScore - 3 * depth - 1)
          (ttScore - 3 * depth) (setExcluded st ply m) rec hrec
  · exact Or.inl hrec

/-- Trace extension through LMR. -/
lemma lmrStep_trace {P : Type}
    (childNonPV : Int → Int → Int → P → SState → Int × SState)
    (node : NodeK) (madeMoves : Nat) (improving : Bool) (idmod : Nat)
    (reds depth newDepth alpha : Int) (inCheck : Bool) (score0 : Int)
    (pos' : P) (st : SState) (G : StoreRec → Prop)
    (hNP : ∀ d a b p (s : SState), ∀ rec ∈ ((childNonPV d a b p s).2).trace,
      rec ∈ s.trace ∨ G rec) :
    ∀ rec ∈ ((lmrStep childNonPV node madeMoves improving idmod reds depth
        newDepth alpha inCheck score0 pos' st).2.2).trace,
      rec ∈ st.trace ∨ G rec := by
  intro rec hrec
  simp only [lmrStep] at hrec
  split at hrec
  · exact hNP _ _ _ _ _ rec hrec
  · exact Or.inl hrec

/-- Trace extension through LMR plus the two researches. -/
lemma absearchMoveSearch_trace {P : Type}
    (childNonPV childPV : Int → Int → Int → P → SState → Int × SState)
    (node : NodeK) (madeMoves : Nat) (improving : Bool) (idmod : Nat)
    (reds depth newDepth alpha beta : Int) (inCheck : Bool) (score0 : Int)
    (pos' : P) (st : SState) (G : StoreRec → Prop)
    (hNP : ∀ d a b p (s : SState), ∀ rec ∈ ((childNonPV d a b p s).2).trace,
      rec ∈ s.trace ∨ G rec)
    (hPV : ∀ d a b p (s : SState), ∀ rec ∈ ((childPV d a b p s).2).trace,
      rec ∈ s.trace ∨ G rec) :
    ∀ rec ∈ ((absearchMoveSearch childNonPV childPV node madeMoves improving
        idmod reds depth newDepth alpha beta inCheck score0 pos' st).2).trace,
      rec ∈ st.trace ∨ G rec := by
  intro rec hrec
  simp only [absearchMoveSearch] at hrec
  -- the fs disjunction (LMR research or not) is split first, since the
  -- PVS condition mentions fs
  split at hrec
  · -- LMR research happened
    split at hrec
    · rcases hPV _ _ _ _ _ rec hrec with h | h
      · rcases hNP _ _ _ _ _ rec h with h' | h'
        · exact lmrStep_trace _ _ _ _ _ _ _ _ _ _ _ _ _ G hNP rec h'
        · exact Or.inr h'
      · exact Or.inr h
    · rcases hNP _ _ _ _ _ rec hrec with h | h
      · exact lmrStep_trace _ _ _ _ _ _ _ _ _ _ _ _ _ G hNP rec h
      · exact Or.inr h
  · -- no LMR research
    split at hrec
    · rcases hPV _ _ _ _ _ rec hrec with h | h
      · exact lmrStep_trace _ _ _ _ _ _ _ _ _ _ _ _ _ G hNP rec h
      · exact Or.inr h
    · exact lmrStep_trace _ _ _ _ _ _ _ _ _ _ _ _ _ G hNP rec hrec

/-- Trace extension through the absearch move loop: if every child call
only appends records satisfying `G` (and so does the singular
verification), so does the loop. -/
lemma absearchLoop_trace_mono {P : Type} (env : Env P)
    (childNonPV childPV : Int → Int → Int → P → SState → Int × SState)
    (childSing : Int → Int → Int → SState → Int × SState)
    (cfg : SConfig) (node : NodeK) (ply : Int) (pos : P)
    (inCheck improving : Bool) (depth beta : Int) (ttHit : Bool) (ttMove : Move)
    (ttScore tteDepth : Int) (tteFlag : Flag) (excludedMove : Move)
    (G : StoreRec → Prop)
    (hNP : ∀ d a b p (s : SState), ∀ rec ∈ ((childNonPV d a b p s).2).trace,
      rec ∈ s.trace ∨ G rec)
    (hPV : ∀ d a b p (s : SState), ∀ rec ∈ ((childPV d a b p s).2).trace,
      rec ∈ s.trace ∨ G rec)
    (hS : ∀ d a b (s : SState), ∀ rec ∈ ((childSing d a b s).2).trace,
      rec ∈ s.trace ∨ G rec) :
    ∀ (moves : List Move) (madeMoves : Nat) (quiets : List Move)
      (best alpha : Int) (bestMove : Move) (score : Int) (st : SState),
      ∀ rec ∈ ((absearchLoop env childNonPV childPV childSing cfg node ply pos
          inCheck improving depth beta ttHit ttMove ttScore tteDepth tteFlag
          excludedMove moves madeMoves quiets best alpha bestMove score
          st).2).trace,
        rec ∈ st.trace ∨ G rec := by
  intro moves
  induction moves with
  | nil =>
    intro n q b a bm sc st rec hrec
    exact Or.inl hrec
  | cons m ms IH =>
    intro n q b a bm sc st rec hrec
    simp only [absearchLoop] at hrec
    split at hrec
    · exact IH _ _ _ _ _ _ _ rec hrec
    · split at hrec
      · exact IH _ _ _ _ _ _ _ rec hrec
      · split at hrec
        · exact IH _ _ _ _ _ _ _ rec hrec
        · split at hrec
          · exact IH _ _ _ _ _ _ _ rec hrec
          · generalize habs : absearchSingular childSing
              (decide (node ≠ NodeK.Root ∧ depth ≥ 8 ∧ ttHit = true ∧
                ttMove = m ∧ excludedMove = NO_MOVE ∧
                ((ttScore.natAbs : Int)) < 10000 ∧ tteFlag.hasLower = true ∧
                tteDepth ≥ depth - 3)) ttScore depth beta ply m st = sg at hrec
            split at hrec
            · -- multi-cut: state is the singular block's state
              rw [← habs] at hrec
              exact absearchSingular_trace _ _ _ _ _ _ _ _ G hS rec hrec
            · -- searched move: the state flows through the move search, the
              -- effort update and the best/alpha/PV updates
              split at hrec
              · split at hrec
                · split at hrec
                  · -- beta cutoff: killers/history update, then break
                    rw [updateAllHistories_trace, copyPv_trace,
                      addEffort_trace] at hrec
                    rcases absearchMoveSearch_trace _ _ _ _ _ _ _ _ _ _ _ _ _ _ _
                        G hNP hPV rec hrec with h | h
                    · have h' : rec ∈ (sg.2.2).trace := h
                      rw [← habs] at h'
                      exact absearchSingular_trace _ _ _ _ _ _ _ _ G hS rec h'
                    · exact Or.inr h
                  · -- alpha improved, continue
                    rcases IH _ _ _ _ _ _ _ rec hrec with h | h
                    · rw [copyPv_trace, addEffort_trace] at h
                      rcases absearchMoveSearch_trace _ _ _ _ _ _ _ _ _ _ _ _ _ _
                          _ G hNP hPV rec h with h' | h'
                      · have h'' : rec ∈ (sg.2.2).trace := h'
                        rw [← habs] at h''
                        exact absearchSingular_trace _ _ _ _ _ _ _ _ G hS rec h''
                      · exact Or.inr h'
                    · exact Or.inr h
                · -- best improved only, continue
                  rcases IH _ _ _ _ _ _ _ rec hrec with h | h
                  · rw [addEffort_trace] at h
                    rcases absearchMoveSearch_trace _ _ _ _ _ _ _ _ _ _ _ _ _ _ _
                        G hNP hPV rec h with h' | h'
                    · have h'' : rec ∈ (sg.2.2).trace := h'
                      rw [← habs] at h''
                      exact absearchSingular_trace _ _ _ _ _ _ _ _ G hS rec h''
                    · exact Or.inr h'
                  · exact Or.inr h
              · -- no improvement, continue
                rcases IH _ _ _ _ _ _ _ rec hrec with h | h
                · rw [addEffort_trace] at h
                  rcases absearchMoveSearch_trace _ _ _ _ _ _ _ _ _ _ _ _ _ _ _
                      G hNP hPV rec h with h' | h'
                  · have h'' : rec ∈ (sg.2.2).trace := h'
                    rw [← habs] at h''
                    exact absearchSingular_trace _ _ _ _ _ _ _ _ G hS rec h''
                  · exact Or.inr h'
                · exact Or.inr h

/-- When every picker move equals the excluded move, the absearch move
loop tries nothing: it returns its carried state unchanged with
`madeMoves` as given. -/
lemma absearchLoop_all_excluded {P : Type} (env : Env P)
    (childNonPV childPV : Int → Int → Int → P → SState → Int × SState)
    (childSing : Int → Int → Int → SState → Int × SState)
    (cfg : SConfig) (node : NodeK) (ply : Int) (pos : P)
    (inCheck improving : Bool) (depth beta : Int) (ttHit : Bool) (ttMove : Move)
    (ttScore tteDepth : Int) (tteFlag : Flag) (excludedMove : Move) :
    ∀ (moves : List Move), (∀ m ∈ moves, m = excludedMove) →
      ∀ (madeMoves : Nat) (quiets : List Move) (best alpha : Int)
        (bestMove : Move) (score : Int) (st : SState),
        absearchLoop env childNonPV childPV childSing cfg node ply pos inCheck
          improving depth beta ttHit ttMove ttScore tteDepth tteFlag excludedMove
          moves madeMoves quiets best alpha bestMove score st =
          (LoopRes.done best alpha bestMove madeMoves, st) := by
  intro moves
  induction moves with
  | nil =>
    intro _ n q b a bm sc st
    rfl
  | cons m ms IH =>
    intro hmoves n q b a bm sc st
    have hm : m = excludedMove := hmoves m (List.mem_cons_self m ms)
    simp only [absearchLoop]
    rw [if_pos hm]
    exact IH (fun x hx => hmoves x (List.mem_cons_of_mem m hx)) n q b a bm sc st

/-- C6: if the move loop of absearch tries no move at all (every move
the picker yields equals the excluded move; in particular the list is
empty), the value returned from the `moves:` part of absearch is
`alpha` when an excluded move is set, `mated_in(ply)` when in check,
and 0 otherwise (stalemate).  The hypotheses scope the configuration:
no tablebase bound was recorded (`maxValue = VALUE_MATE` in PV nodes),
`alpha ≤ VALUE_MATE`, and the ply is a real stack index, so the PV
clamp `best = min(best, maxValue)` does not disturb the result. -/
theorem absearch_no_moves {P : Type} (env : Env P)
    (childNonPV childPV : Int → Int → Int → P → SState → Int × SState)
    (childSing : Int → Int → Int → SState → Int × SState)
    (cfg : SConfig) (node : NodeK) (ply : Int) (pos : P)
    (inCheck improving : Bool) (depth alpha beta best maxValue : Int)
    (ttHit : Bool) (ttMove : Move) (ttScore tteDepth : Int) (tteFlag : Flag)
    (excludedMove : Move) (st : SState)
    (hmoves : ∀ m ∈ env.amoves pos, m = excludedMove)
    (hmax : pvBool node = true → maxValue = VALUE_MATE)
    (halpha : alpha ≤ VALUE_MATE)
    (hply0 : 0 ≤ ply) (hplyM : ply ≤ MAX_PLY) :
    (absearchMoves env childNonPV childPV childSing cfg node ply pos inCheck
        improving depth alpha beta best maxValue ttHit ttMove ttScore tteDepth
        tteFlag excludedMove st).1 =
      if excludedMove ≠ NO_MOVE then alpha
      else if inCheck = true then mated_in ply else 0 := by
  unfold absearchMoves
  rw [absearchLoop_all_excluded env childNonPV childPV childSing cfg node ply pos
    inCheck improving depth beta ttHit ttMove ttScore tteDepth tteFlag
    excludedMove (env.amoves pos) hmoves 0 [] best alpha NO_MOVE VALUE_NONE st]
  dsimp only
  rw [if_pos rfl]
  split_ifs with hpv h1 h2
  · rw [hmax hpv]
    exact min_eq_left halpha
  · rw [hmax hpv]
    refine min_eq_left ?_
    simp only [mated_in, VALUE_MATE, MAX_PLY] at *
    omega
  · rw [hmax hpv]
    refine min_eq_left ?_
    simp only [VALUE_MATE]
    omega
  · rfl
  · rfl
  · rfl

/-- Witness for C6: with no candidate moves, no excluded move and not
in check, the `moves:` part of absearch returns 0 (stalemate). -/
theorem absearch_no_moves_witness :
    (absearchMoves envC5 (fun _ _ _ _ s => ((0 : Int), s))
        (fun _ _ _ _ s => ((0 : Int), s)) (fun _ _ _ s => ((0 : Int), s))
        cfgDatagen NodeK.NonPV 0 0 false false 5 (-100) 100 (-VALUE_INFINITE)
        VALUE_MATE false NO_MOVE VALUE_NONE 0 Flag.NONEBOUND NO_MOVE st0).1 =
      if NO_MOVE ≠ NO_MOVE then (-100)
      else if false = true then mated_in 0 else 0 :=
  absearch_no_moves envC5 _ _ _ cfgDatagen NodeK.NonPV 0 0 false false 5 (-100)
    100 (-VALUE_INFINITE) VALUE_MATE false NO_MOVE VALUE_NONE 0 Flag.NONEBOUND
    NO_MOVE st0 (fun m hm => absurd hm (List.not_mem_nil m))
    (fun h => absurd h (by decide)) (by decide) le_rfl (by decide)

/-! ### Claim C7: the aspiration-window loop terminates -/

/-- Truncating division by two differs from the argument's double by at
most one, with the direction fixed by the sign. -/
lemma tdiv_two_cases (x : Int) :
    2 * Int.tdiv x 2 = x ∨ 2 * Int.tdiv x 2 = x - 1 ∨ 2 * Int.tdiv x 2 = x + 1 := by
  rcases le_or_lt 0 x with hx | hx
  · rw [Int.tdiv_eq_ediv hx (by norm_num)]
    omega
  · have hneg : Int.tdiv x 2 = -(Int.tdiv (-x) 2) := by
      rw [← Int.neg_tdiv, neg_neg]
    rw [hneg, Int.tdiv_eq_ediv (by omega) (by norm_num)]
    omega

/-- One-step unfolding of the aspiration retry loop. -/
lemma aspLoop_succ (A : AspEnv) (cfg : SConfig) (fuel : Nat) (i : Nat)
    (alpha beta delta : Int) :
    aspLoop A cfg (fuel + 1) i alpha beta delta =
      (if A.stoppedAt i then some 0
       else if cfg.id = 0 ∧ cfg.limitNodes ≠ 0 ∧ A.nodesAt i ≥ cfg.limitNodes then
         some 0
       else if A.rootResult i ≤ (if alpha < -3500 then -VALUE_INFINITE else alpha) then
         aspLoop A cfg fuel (i + 1)
           (max ((if alpha < -3500 then -VALUE_INFINITE else alpha) - delta)
             (-VALUE_INFINITE))
           (Int.tdiv ((if alpha < -3500 then -VALUE_INFINITE else alpha) +
             (if beta > 3500 then VALUE_INFINITE else beta)) 2)
           (delta + Int.tdiv delta 2)
       else if A.rootResult i ≥ (if beta > 3500 then VALUE_INFINITE else beta) then
         aspLoop A cfg fuel (i + 1)
           (if alpha < -3500 then -VALUE_INFINITE else alpha)
           (min ((if beta > 3500 then VALUE_INFINITE else beta) + delta)
             VALUE_INFINITE)
           (delta + Int.tdiv delta 2)
       else some (A.rootResult i)) := rfl

/-- Core termination argument for the aspiration loop, by strong
induction on the combined window measure: a fail-low strictly shrinks
`normA` (and keeps `normB` under 70000), a fail-high strictly shrinks
`normB` and keeps `normA`, and with both bounds slackened to infinity
an in-range root result must exit. -/
lemma aspLoop_isSome (A : AspEnv) (cfg : SConfig)
    (hres : ∀ i, -VALUE_INFINITE < A.rootResult i ∧ A.rootResult i < VALUE_INFINITE) :
    ∀ n i alpha beta delta, 30 ≤ delta → -32002 ≤ beta →
      normA alpha * 70000 + normB beta ≤ n →
      ∃ fuel, (aspLoop A cfg fuel i alpha beta delta).isSome := by
  intro n
  induction n using Nat.strong_induction_on with
  | _ n IH =>
    intro i alpha beta delta hdelta hbeta hm
    have hri := hres i
    simp only [VALUE_INFINITE] at hri
    by_cases hstop : A.stoppedAt i = true
    · exact ⟨0 + 1, by rw [aspLoop_succ, if_pos hstop]; rfl⟩
    · by_cases hnode : cfg.id = 0 ∧ cfg.limitNodes ≠ 0 ∧ A.nodesAt i ≥ cfg.limitNodes
      · exact ⟨0 + 1, by rw [aspLoop_succ, if_neg hstop, if_pos hnode]; rfl⟩
      · by_cases hlow :
          A.rootResult i ≤ (if alpha < -3500 then -VALUE_INFINITE else alpha)
        · -- fail-low; the slackened alpha cannot be -INF
          have halpha : ¬(alpha < -3500) := by
            intro hc
            rw [if_pos hc] at hlow
            simp only [VALUE_INFINITE] at hlow
            omega
          have hαfold : (if alpha < -3500 then -VALUE_INFINITE else alpha) = alpha :=
            if_neg halpha
          rw [hαfold] at hlow
          have hβs1 : -32002 ≤ (if beta > 3500 then VALUE_INFINITE else beta) := by
            simp only [VALUE_INFINITE]
            split <;> omega
          have hβs2 : (if beta > 3500 then VALUE_INFINITE else beta) ≤ 32001 := by
            simp only [VALUE_INFINITE]
            split <;> omega
          have hdelta2 := tdiv_two_cases delta
          have hsum := tdiv_two_cases (alpha +
            (if beta > 3500 then VALUE_INFINITE else beta))
          have hbeta' : -32002 ≤ Int.tdiv (alpha +
              (if beta > 3500 then VALUE_INFINITE else beta)) 2 := by
            omega
          have hdelta' : 30 ≤ delta + Int.tdiv delta 2 := by omega
          have h1 : normA (max (alpha - delta) (-VALUE_INFINITE)) + 30
              ≤ normA alpha := by
            simp only [normA, VALUE_INFINITE]
            split_ifs <;> omega
          have h2 : normB (Int.tdiv (alpha +
              (if beta > 3500 then VALUE_INFINITE else beta)) 2) ≤ 69999 := by
            generalize (if beta > 3500 then VALUE_INFINITE else beta) = B
              at hsum hβs1 hβs2 ⊢
            simp only [normB]
            split_ifs <;> omega
          have h3 : 28501 ≤ normA alpha := by
            simp only [normA, if_neg halpha]
            omega
          have hmeas : normA (max (alpha - delta) (-VALUE_INFINITE)) * 70000 +
              normB (Int.tdiv (alpha +
                (if beta > 3500 then VALUE_INFINITE else beta)) 2) < n := by
            omega
          obtain ⟨f, hf⟩ := IH _ hmeas (i + 1) _ _ _ hdelta' hbeta' le_rfl
          refine ⟨f + 1, ?_⟩
          rw [aspLoop_succ, if_neg hstop, if_neg hnode, hαfold, if_pos hlow]
          exact hf
        · by_cases hhigh :
            A.rootResult i ≥ (if beta > 3500 then VALUE_INFINITE else beta)
          · -- fail-high; the slackened beta cannot be +INF
            have hbetao : ¬(beta > 3500) := by
              intro hc
              rw [if_pos hc] at hhigh
              simp only [VALUE_INFINITE] at hhigh
              omega
            have hβfold : (if beta > 3500 then VALUE_INFINITE else beta) = beta :=
              if_neg hbetao
            have hdelta2 := tdiv_two_cases delta
            have hdelta' : 30 ≤ delta + Int.tdiv delta 2 := by omega
            have hbeta' : -32002 ≤ min (beta + delta) VALUE_INFINITE := by
              simp only [VALUE_INFINITE]
              omega
            have h1 : normA (if alpha < -3500 then -VALUE_INFINITE else alpha)
                = normA alpha := by
              simp only [normA, VALUE_INFINITE]
              split_ifs <;> omega
            have h2 : normB (min (beta + delta) VALUE_INFINITE) + 30
                ≤ normB beta := by
              simp only [normB, VALUE_INFINITE]
              split_ifs <;> omega
            have h3 : 28501 ≤ normB beta := by
              simp only [normB, if_neg hbetao]
              omega
            have hmeas : normA (if alpha < -3500 then -VALUE_INFINITE else alpha)
                * 70000 + normB (min (beta + delta) VALUE_INFINITE) < n := by
              omega
            obtain ⟨f, hf⟩ := IH _ hmeas (i + 1) _ _ _ hdelta' hbeta' le_rfl
            refine ⟨f + 1, ?_⟩
            rw [aspLoop_succ, if_neg hstop, if_neg hnode, if_neg hlow, if_pos hhigh,
              hβfold]
            exact hf
          · exact ⟨0 + 1, by
              rw [aspLoop_succ, if_neg hstop, if_neg hnode, if_neg hlow,
                if_neg hhigh]
              rfl⟩

/-- C7: for every depth and previous evaluation (strictly inside
`(-INF, INF)`), given that every `absearch<Root>` result is strictly
inside `(-INF, INF)`, the aspiration-window retry loop of
`aspirationSearch` terminates: some finite fuel suffices for the loop
to exit with a result. -/
theorem aspirationSearch_terminates (A : AspEnv) (cfg : SConfig)
    (hres : ∀ i, -VALUE_INFINITE < A.rootResult i ∧ A.rootResult i < VALUE_INFINITE)
    (depth prevEval : Int)
    (hprev : -VALUE_INFINITE < prevEval ∧ prevEval < VALUE_INFINITE) :
    ∃ fuel, (aspirationSearch A cfg fuel depth prevEval).isSome := by
  unfold aspirationSearch
  simp only [VALUE_INFINITE] at hprev
  by_cases hd : depth ≥ 9
  · simp only [if_pos hd]
    exact aspLoop_isSome A cfg hres _ 0 _ _ _ (by norm_num) (by omega) le_rfl
  · simp only [if_neg hd]
    refine aspLoop_isSome A cfg hres _ 0 _ _ _ (by norm_num) ?_ le_rfl
    simp only [VALUE_INFINITE]
    norm_num

/-- Witness for C7: a concrete oracle whose root results are all 0
terminates from depth 10 with previous evaluation 0. -/
theorem aspirationSearch_terminates_witness :
    ∃ fuel, (aspirationSearch ⟨fun _ => 0, fun _ => false, fun _ => 0⟩
      ⟨true, 0, false, 0, 0⟩ fuel 10 0).isSome :=
  aspirationSearch_terminates _ _
    (fun _ => ⟨by show -VALUE_INFINITE < (0 : Int); decide,
      by show (0 : Int) < VALUE_INFINITE; decide⟩) 10 0
    ⟨by decide, by decide⟩

/-! ### Claim C9: the butterfly history stays bounded -/

/-- Core arithmetic of the history-gravity update, for nonnegative
entry `m` and nonnegative bonus magnitude `B` (C++ `/` on nonnegative
operands is floor division). -/
lemma histCore (m B : Int) (hm0 : 0 ≤ m) (hm : m ≤ 18384) (hB0 : 0 ≤ B)
    (hB : B ≤ 2000) :
    0 ≤ m + B - (m * B) / 16384 ∧ m + B - (m * B) / 16384 ≤ 18384 ∧
    0 ≤ (m * B) / 16384 ∧ (m * B) / 16384 ≤ m := by
  have h2 : m * B ≤ m * 16384 := by nlinarith
  have h3 : 16384 * (m + B - 18384) ≤ m * B := by nlinarith
  have h4 : 0 ≤ m * B := mul_nonneg hm0 hB0
  generalize m * B = y at *
  omega

/-- One history-gravity update keeps an entry within `16384 + 2000`:
`|H| ≤ 16384 + 2000` and `|b| ≤ 2000` imply
`|H + (b - H·|b|/16384)| ≤ 16384 + 2000` (division truncating toward
zero, as in C++). -/
lemma histStep_bound (h b : Int) (hh : h.natAbs ≤ 16384 + 2000)
    (hb : b.natAbs ≤ 2000) :
    (h + (b - Int.tdiv (h * (b.natAbs : Int)) 16384)).natAbs ≤ 16384 + 2000 := by
  rcases le_or_lt 0 h with hpos | hneg
  · rw [Int.tdiv_eq_ediv (mul_nonneg hpos (by positivity)) (by norm_num)]
    rcases le_or_lt 0 b with hb0 | hb0
    · rw [Int.natAbs_of_nonneg hb0]
      have := histCore h b hpos (by omega) hb0 (by omega)
      omega
    · have hB : ((b.natAbs : Int)) = -b := by omega
      rw [hB]
      have := histCore h (-b) hpos (by omega) (by omega) (by omega)
      omega
  · have hre : h * ((b.natAbs : Int)) = -((-h) * ((b.natAbs : Int))) := by ring
    rw [hre, Int.neg_tdiv,
      Int.tdiv_eq_ediv (mul_nonneg (by omega) (by positivity)) (by norm_num)]
    rcases le_or_lt 0 b with hb0 | hb0
    · rw [Int.natAbs_of_nonneg hb0]
      have := histCore (-h) b (by omega) (by omega) hb0 (by omega)
      omega
    · have hB : ((b.natAbs : Int)) = -b := by omega
      rw [hB]
      have := histCore (-h) (-b) (by omega) (by omega) (by omega) (by omega)
      omega

/-- `updateHistoryBonus` preserves the pointwise history bound. -/
lemma updateHistoryBonus_bound (c : Color) (h : Hist) (m : Move) (b : Int)
    (hb : b.natAbs ≤ 2000)
    (hh : ∀ c' f t, ((h c' f t).natAbs ≤ 16384 + 2000)) :
    ∀ c' f t, (((updateHistoryBonus c h m b) c' f t).natAbs ≤ 16384 + 2000) := by
  intro c' f t
  unfold updateHistoryBonus histSet
  split
  · exact histStep_bound _ _ (hh c m.fromSq m.toSq) hb
  · exact hh c' f t

/-- The fold over the tried quiet moves preserves the history bound. -/
lemma foldl_hist_bound (c : Color) (bm : Move) (b : Int) (hb : b.natAbs ≤ 2000) :
    ∀ (quiets : List Move) (h : Hist),
      (∀ c' f t, ((h c' f t).natAbs ≤ 16384 + 2000)) →
      ∀ c' f t,
        (((quiets.foldl
            (fun h m => if m = bm then h else updateHistoryBonus c h m (-b)) h)
          c' f t).natAbs ≤ 16384 + 2000)
  | [], _, hh => hh
  | m :: ms, h, hh => by
    simp only [List.foldl_cons]
    refine foldl_hist_bound c bm b hb ms _ ?_
    intro c' f t
    split
    · exact hh c' f t
    · exact updateHistoryBonus_bound c h m (-b) (by omega) hh c' f t

/-- `updateHistory` preserves the history bound. -/
lemma updateHistory_bound (c : Color) (bm : Move) (b : Int) (depth : Int)
    (quiets : List Move) (h : Hist) (hb : b.natAbs ≤ 2000)
    (hh : ∀ c' f t, ((h c' f t).natAbs ≤ 16384 + 2000)) :
    ∀ c' f t,
      (((updateHistory c bm b depth quiets h) c' f t).natAbs ≤ 16384 + 2000) := by
  unfold updateHistory
  refine foldl_hist_bound c bm b hb quiets _ ?_
  split
  · exact updateHistoryBonus_bound c h bm b hb hh
  · exact hh

/-- The history bonus has magnitude at most 2000 for nonnegative depth
(search.cpp line 28: `min(2000, depth*155)`). -/
lemma bonus_natAbs (depth : Int) (h : 0 ≤ depth) : (bonus depth).natAbs ≤ 2000 := by
  unfold bonus
  omega

/-- C9: the butterfly history table stays bounded.  If before a call to
`updateAllHistories` every entry `H` satisfies `|H| ≤ 16384 + 2000`,
then after the call (bonus = `min(2000, depth*155)`, delta
`±bonus - H·|±bonus|/16384` applied to the best move and each tried
quiet) every entry still satisfies `|H| ≤ 16384 + 2000`. -/
theorem updateAllHistories_bound {P : Type} (env : Env P) (pos : P) (ply : Int)
    (bestMove : Move) (best beta : Int) (depth : Int) (quiets : List Move)
    (st : SState) (hdepth : 0 ≤ depth)
    (hh : ∀ c f t, (((st.history) c f t).natAbs ≤ 16384 + 2000)) :
    ∀ c f t,
      ((((updateAllHistories env pos ply bestMove best beta depth quiets
        st).history) c f t).natAbs ≤ 16384 + 2000) := by
  unfold updateAllHistories
  split
  · exact hh
  · split
    · exact updateHistory_bound _ _ _ _ _ _ (bonus_natAbs depth hdepth) hh
    · exact hh

theorem updateAllHistories_bound_witness :
    (((updateAllHistories envC5 (0 : Nat) 0 mC5 10 5 3 [] st0).history)
      Color.white 0 0).natAbs ≤ 16384 + 2000 :=
  updateAllHistories_bound envC5 0 0 mC5 10 5 3 [] st0 (by decide)
    (fun c f t => Nat.zero_le _) Color.white 0 0

/-! ### Claim C3: TT stores respect the stop flag -/

lemma setExcluded_trace (st : SState) (i : Int) (m : Move) :
    (setExcluded st i m).trace = st.trace := rfl

lemma setExcluded_stopped (st : SState) (i : Int) (m : Move) :
    (setExcluded st i m).stopped = st.stopped := rfl

lemma setCurrentMove_trace (st : SState) (i : Int) (m : Move) :
    (setCurrentMove st i m).trace = st.trace := rfl

lemma setEval_trace (st : SState) (i : Int) (v : Int) :
    (setEval st i v).trace = st.trace := rfl

lemma setPvLenInit_trace (ply : Int) (st : SState) :
    (setPvLenInit ply st).trace = st.trace := rfl

lemma setPvLenInit_stopped (ply : Int) (st : SState) :
    (setPvLenInit ply st).stopped = st.stopped := rfl

lemma updSeldepth_trace (c : Bool) (ply : Int) (st : SState) :
    (updSeldepth c ply st).trace = st.trace := by
  unfold updSeldepth
  split <;> rfl

lemma updSeldepth_stopped (c : Bool) (ply : Int) (st : SState) :
    (updSeldepth c ply st).stopped = st.stopped := by
  unfold updSeldepth
  split <;> rfl

/-- The tablebase block either keeps the trace or appends a record
stamped with the current stop flag. -/
lemma absearchTB_trace {P : Type} (env : Env P) (active : Bool) (node : NodeK)
    (ply depth alpha beta : Int) (key : Nat) (pos : P) (st : SState) :
    ∀ rec ∈ ((absearchTB env active node ply depth alpha beta key pos
        st).2.2.2.2).trace,
      rec ∈ st.trace ∨ rec.stoppedAt = st.stopped := by
  intro rec hrec
  simp only [absearchTB, storeEntry] at hrec
  repeat' split at hrec
  all_goals try exact Or.inl hrec
  all_goals rcases List.mem_append.mp hrec with h | h
  all_goals try exact Or.inl h
  all_goals rcases List.mem_singleton.mp h with rfl
  all_goals exact Or.inr rfl

/-- The state reached just before the tablebase probe of `absearch` in
a normal search has a clear stop flag, so any record the probe (or
anything after it) stamps with that flag is a clear-stop record. -/
lemma absearchTB_stop {P Q : Type} (cfg : SConfig) (env : Env P) (st : SState)
    (hn : cfg.normalSearch = true)
    (hlim : (limitReached cfg env st).1 = false)
    (envQ : Env Q) (active : Bool) (node : NodeK)
    (ply depth alpha beta : Int) (key : Nat) (pos : Q) (c : Bool)
    (plyF j : Int) :
    ∀ rec ∈ ((absearchTB envQ active node ply depth alpha beta key pos
        (updSeldepth c plyF (setExcluded (setPvLenInit plyF
          (limitReached cfg env st).2) j NO_MOVE))).2.2.2.2).trace,
      rec ∈ st.trace ∨ rec.stoppedAt = false := by
  intro rec hrec
  rcases absearchTB_trace envQ active node ply depth alpha beta key pos _ rec
      hrec with h | h
  · simp only [updSeldepth_trace, setExcluded_trace, setPvLenInit_trace,
      limitReached_trace] at h
    exact Or.inl h
  · refine Or.inr ?_
    rw [h, updSeldepth_stopped, setExcluded_stopped, setPvLenInit_stopped]
    exact limitReached_stopped_false cfg env st hn hlim

/-- In a normal search, every record `qsearch` appends to the trace is
stamped with a clear stop flag. -/
lemma qsearch_stop_aux {P : Type} (env : Env P) (cfg : SConfig)
    (hn : cfg.normalSearch = true) :
    ∀ (fuel : Nat) (pv : Bool) (ply alpha beta : Int) (pos : P) (st : SState),
      ∀ rec ∈ ((qsearch env cfg fuel pv ply alpha beta pos st).2).trace,
        rec ∈ st.trace ∨ rec.stoppedAt = false := by
  intro fuel
  induction fuel with
  | zero =>
    intro pv ply alpha beta pos st rec hrec
    exact Or.inl hrec
  | succ fuel IH =>
    intro pv ply alpha beta pos st rec hrec
    simp only [qsearch] at hrec
    split at hrec
    · rw [limitReached_trace] at hrec
      exact Or.inl hrec
    · split at hrec
      · rw [limitReached_trace] at hrec
        exact Or.inl hrec
      · split at hrec
        · rw [limitReached_trace] at hrec
          exact Or.inl hrec
        · split at hrec
          · rw [limitReached_trace] at hrec
            exact Or.inl hrec
          · rw [limitReached_trace] at hrec
            exact Or.inl hrec
          · split at hrec
            · rw [limitReached_trace] at hrec
              exact Or.inl hrec
            · split at hrec
              · rw [limitReached_trace] at hrec
                exact Or.inl hrec
              · have hloop := qsearchLoop_trace_mono env
                  (qsearch env cfg fuel pv (ply + 1))
                  (fun r => r.stoppedAt = false)
                  ply pos (env.inCheck pos) (env.sideToMove pos) beta
                  (fun a b p s r hr => IH pv (ply + 1) a b p s r hr)
                rcases qsearchTTStore_trace_norm _ _ _ _ _ _ _ hn rec hrec
                  with h | h
                · rcases hloop _ _ _ _ _ rec h with h' | h'
                  · rw [limitReached_trace] at h'
                    exact Or.inl h'
                  · exact Or.inr h'
                · exact Or.inr h

/-- In a normal search, the move-loop-and-store tail of `absearch`
appends only clear-stop records, given the same for the three child
callbacks. -/
lemma absearchMoves_stop {P : Type} (env : Env P)
    (childNonPV childPV : Int → Int → Int → P → SState → Int × SState)
    (childSing : Int → Int → Int → SState → Int × SState)
    (cfg : SConfig) (node : NodeK) (ply : Int) (pos : P)
    (inCheck improving : Bool) (depth alpha beta best maxValue : Int)
    (ttHit : Bool) (ttMove : Move) (ttScore tteDepth : Int) (tteFlag : Flag)
    (excludedMove : Move) (st : SState) (hn : cfg.normalSearch = true)
    (hNP : ∀ d a b p (s : SState), ∀ rec ∈ ((childNonPV d a b p s).2).trace,
      rec ∈ s.trace ∨ rec.stoppedAt = false)
    (hPV : ∀ d a b p (s : SState), ∀ rec ∈ ((childPV d a b p s).2).trace,
      rec ∈ s.trace ∨ rec.stoppedAt = false)
    (hS : ∀ d a b (s : SState), ∀ rec ∈ ((childSing d a b s).2).trace,
      rec ∈ s.trace ∨ rec.stoppedAt = false) :
    ∀ rec ∈ ((absearchMoves env childNonPV childPV childSing cfg node ply pos
        inCheck improving depth alpha beta best maxValue ttHit ttMove ttScore
        tteDepth tteFlag excludedMove st).2).trace,
      rec ∈ st.trace ∨ rec.stoppedAt = false := by
  intro rec hrec
  simp only [absearchMoves] at hrec
  split at hrec
  · exact absearchLoop_trace_mono env childNonPV childPV childSing cfg node ply
      pos inCheck improving depth beta ttHit ttMove ttScore tteDepth tteFlag
      excludedMove (fun r => r.stoppedAt = false) hNP hPV hS _ _ _ _ _ _ _ _
      rec hrec
  · rcases absearchTTStore_trace_norm cfg excludedMove _ _ _ _ _ _ _ _ hn rec
        hrec with h | h
    · exact absearchLoop_trace_mono env childNonPV childPV childSing cfg node
        ply pos inCheck improving depth beta ttHit ttMove ttScore tteDepth
        tteFlag excludedMove (fun r => r.stoppedAt = false) hNP hPV hS _ _ _ _
        _ _ _ _ rec h
    · exact Or.inr h

/-- In a normal search, the post-tablebase tail of `absearch` appends
only clear-stop records, given the same for the qsearch drop and the
three child callbacks. -/
lemma absearchRest_stop {P : Type} (env : Env P) (cfg : SConfig)
    (qchild : Bool → Int → Int → SState → Int × SState)
    (childNonPV childPV : Int → Int → Int → P → SState → Int × SState)
    (childSing : Int → Int → Int → SState → Int × SState)
    (node : NodeK) (ply depth alpha beta : Int) (pos : P) (inCheck : Bool)
    (ttHit : Bool) (ttMove : Move) (ttScore tteDepth : Int) (tteFlag : Flag)
    (tteScoreRaw : Int) (excludedMove : Move) (color : Color)
    (best maxValue : Int) (st : SState) (hn : cfg.normalSearch = true)
    (hQ : ∀ pv a b (s : SState), ∀ rec ∈ ((qchild pv a b s).2).trace,
      rec ∈ s.trace ∨ rec.stoppedAt = false)
    (hNP : ∀ d a b p (s : SState), ∀ rec ∈ ((childNonPV d a b p s).2).trace,
      rec ∈ s.trace ∨ rec.stoppedAt = false)
    (hPV : ∀ d a b p (s : SState), ∀ rec ∈ ((childPV d a b p s).2).trace,
      rec ∈ s.trace ∨ rec.stoppedAt = false)
    (hS : ∀ d a b (s : SState), ∀ rec ∈ ((childSing d a b s).2).trace,
      rec ∈ s.trace ∨ rec.stoppedAt = false) :
    ∀ rec ∈ ((absearchRest env cfg qchild childNonPV childPV childSing node ply
        depth alpha beta pos inCheck ttHit ttMove ttScore tteDepth tteFlag
        tteScoreRaw excludedMove color best maxValue st).2).trace,
      rec ∈ st.trace ∨ rec.stoppedAt = false := by
  intro rec hrec
  simp only [absearchRest] at hrec
  split at hrec
  · -- in check: straight to the move loop
    exact absearchMoves_stop env _ _ _ cfg _ _ _ _ _ _ _ _ _ _ _ _ _ _ _ _ _
      hn hNP hPV hS rec hrec
  · split at hrec
    · -- root node
      rcases absearchMoves_stop env _ _ _ cfg _ _ _ _ _ _ _ _ _ _ _ _ _ _ _ _
          _ hn hNP hPV hS rec hrec with h | h
      · rw [setEval_trace] at h
        exact Or.inl h
      · exact Or.inr h
    · split at hrec
      · -- IIR dropped the depth to 0: qsearch
        rcases hQ _ _ _ _ rec hrec with h | h
        · rw [setEval_trace] at h
          exact Or.inl h
        · exact Or.inr h
      · split at hrec
        · -- PV node: move loop
          rcases absearchMoves_stop env _ _ _ cfg _ _ _ _ _ _ _ _ _ _ _ _ _ _
              _ _ _ hn hNP hPV hS rec hrec with h | h
          · rw [setEval_trace] at h
            exact Or.inl h
          · exact Or.inr h
        · split at hrec
          · -- razoring: qsearch
            rcases hQ _ _ _ _ rec hrec with h | h
            · rw [setEval_trace] at h
              exact Or.inl h
            · exact Or.inr h
          · split at hrec
            · -- reverse futility pruning
              rw [setEval_trace] at hrec
              exact Or.inl hrec
            · split at hrec
              · -- null-move search
                split at hrec
                · -- null cutoff
                  rcases hNP _ _ _ _ _ rec hrec with h | h
                  · rw [setCurrentMove_trace, setEval_trace] at h
                    exact Or.inl h
                  · exact Or.inr h
                · -- null failed: move loop on its state
                  rcases absearchMoves_stop env _ _ _ cfg _ _ _ _ _ _ _ _ _ _
                      _ _ _ _ _ _ _ hn hNP hPV hS rec hrec with h | h
                  · rcases hNP _ _ _ _ _ rec h with h' | h'
                    · rw [setCurrentMove_trace, setEval_trace] at h'
                      exact Or.inl h'
                    · exact Or.inr h'
                  · exact Or.inr h
              · -- plain move loop
                rcases absearchMoves_stop env _ _ _ cfg _ _ _ _ _ _ _ _ _ _ _
                    _ _ _ _ _ _ hn hNP hPV hS rec hrec with h | h
                · rw [setEval_trace] at h
                  exact Or.inl h
                · exact Or.inr h

/-- In a normal search, every record `absearch` appends to the trace is
stamped with a clear stop flag (including the unguarded tablebase
store, which runs only after `limitReached` returned `false`, i.e. with
the stop flag still clear). -/
lemma absearch_stop_aux {P : Type} (env : Env P) (cfg : SConfig)
    (hn : cfg.normalSearch = true) :
    ∀ (fuel : Nat) (node : NodeK) (depth alpha beta ply : Int) (pos : P)
      (st : SState),
      ∀ rec ∈ ((absearch env cfg fuel node depth alpha beta ply pos st).2).trace,
        rec ∈ st.trace ∨ rec.stoppedAt = false := by
  intro fuel
  induction fuel with
  | zero =>
    intro node depth alpha beta ply pos st rec hrec
    exact Or.inl hrec
  | succ fuel IH =>
    intro node depth alpha beta ply pos st rec hrec
    have hNP : ∀ d a b (p : P) (s : SState),
        ∀ r ∈ ((absearch env cfg fuel NodeK.NonPV d a b (ply + 1) p s).2).trace,
          r ∈ s.trace ∨ r.stoppedAt = false :=
      fun d a b p s => IH NodeK.NonPV d a b (ply + 1) p s
    have hPV : ∀ d a b (p : P) (s : SState),
        ∀ r ∈ ((absearch env cfg fuel NodeK.PV d a b (ply + 1) p s).2).trace,
          r ∈ s.trace ∨ r.stoppedAt = false :=
      fun d a b p s => IH NodeK.PV d a b (ply + 1) p s
    have hSg : ∀ d a b (s : SState),
        ∀ r ∈ ((absearch env cfg fuel NodeK.NonPV d a b ply pos s).2).trace,
          r ∈ s.trace ∨ r.stoppedAt = false :=
      fun d a b s => IH NodeK.NonPV d a b ply pos s
    have hQ : ∀ pv a b (s : SState),
        ∀ r ∈ ((qsearch env cfg fuel pv ply a b pos s).2).trace,
          r ∈ s.trace ∨ r.stoppedAt = false :=
      fun pv a b s => qsearch_stop_aux env cfg hn fuel pv ply a b pos s
    simp only [absearch] at hrec
    split at hrec
    · -- limit reached: abort
      rw [limitReached_trace] at hrec
      exact Or.inl hrec
    · rename_i hlim
      have hlim' : (limitReached cfg env st).1 = false :=
        Bool.eq_false_iff.mpr hlim
      split at hrec
      · -- max ply
        rw [limitReached_trace] at hrec
        exact Or.inl hrec
      · split at hrec
        · -- draw detected
          simp only [setPvLenInit_trace, limitReached_trace] at hrec
          exact Or.inl hrec
        · split at hrec
          · -- mate-distance pruning
            simp only [setPvLenInit_trace, limitReached_trace] at hrec
            exact Or.inl hrec
          · split at hrec
            · -- drop to qsearch at depth <= 0
              rcases qsearch_stop_aux env cfg hn fuel _ _ _ _ _ _ rec hrec
                with h | h
              · simp only [setPvLenInit_trace, limitReached_trace] at h
                exact Or.inl h
              · exact Or.inr h
            · split at hrec
              · -- TT cutoff
                simp only [updSeldepth_trace, setExcluded_trace,
                  setPvLenInit_trace, limitReached_trace] at hrec
                exact Or.inl hrec
              · split at hrec
                · -- tablebase cutoff, with its unguarded store
                  exact absearchTB_stop cfg env st hn hlim' env _ node ply _ _
                    _ _ pos _ _ _ rec hrec
                · -- everything after the tablebase probe
                  rcases absearchRest_stop env cfg _ _ _ _ node ply _ _ _ pos
                      _ _ _ _ _ _ _ _ _ _ _ _ hn hQ hNP hPV hSg rec hrec
                    with h | h
                  · exact absearchTB_stop cfg env st hn hlim' env _ node ply
                      _ _ _ _ pos _ _ _ rec h
                  · exact Or.inr h

/-- C3: TT stores respect the stop flag.  In a normal search
(`normalSearch = true`) every record `absearch` appends to the TT-store
trace, and every record `qsearch` appends, is stamped with a clear stop
flag — no store happens while the shared stop flag is set.  In datagen
(`normalSearch = false`) the quiescence store always appends its
record, stop flag set or not, and the absearch store appends its record
exactly when no excluded move is set. -/
theorem tt_stores_respect_stop {P : Type} (env : Env P) (cfg : SConfig)
    (fuel : Nat) (node : NodeK) (pv : Bool) (depth alpha beta ply : Int)
    (pos : P) (st : SState) (key : Nat) (bestMove excludedMove : Move)
    (bestValue best : Int) :
    (cfg.normalSearch = true →
      ∀ rec ∈ ((absearch env cfg fuel node depth alpha beta ply pos
          st).2).trace,
        rec ∈ st.trace ∨ rec.stoppedAt = false) ∧
    (cfg.normalSearch = true →
      ∀ rec ∈ ((qsearch env cfg fuel pv ply alpha beta pos st).2).trace,
        rec ∈ st.trace ∨ rec.stoppedAt = false) ∧
    (cfg.normalSearch = false →
      (qsearchTTStore cfg ply bestValue beta key bestMove st).trace =
        st.trace ++ [⟨0, scoreToTT bestValue ply,
          (if bestValue ≥ beta then Flag.LOWERBOUND else Flag.UPPERBOUND),
          key, bestMove, ply, st.stopped⟩]) ∧
    (cfg.normalSearch = false →
      (absearchTTStore cfg excludedMove depth ply best beta node bestMove key
          st).trace =
        if excludedMove = NO_MOVE then
          st.trace ++ [⟨depth, scoreToTT best ply,
            (if best ≥ beta then Flag.LOWERBOUND
             else if pvBool node = true ∧ bestMove ≠ NO_MOVE then
               Flag.EXACTBOUND
             else Flag.UPPERBOUND),
            key, bestMove, ply, st.stopped⟩]
        else st.trace) := by
  refine ⟨?_, ?_, ?_, ?_⟩
  · intro hn
    exact absearch_stop_aux env cfg hn fuel node depth alpha beta ply pos st
  · intro hn
    exact qsearch_stop_aux env cfg hn fuel pv ply alpha beta pos st
  · intro hd
    simp only [qsearchTTStore, storeEntry]
    rw [if_pos (Or.inl hd)]
  · intro hd
    simp only [absearchTTStore, storeEntry]
    by_cases he : excludedMove = NO_MOVE
    · rw [if_pos ⟨he, Or.inl hd⟩, if_pos he]
    · rw [if_neg ?_, if_neg he]
      intro hc
      exact he hc.1

theorem tt_stores_respect_stop_witness :
    (qsearchTTStore cfgDatagen 0 5 3 7 NO_MOVE st0).trace =
      st0.trace ++ [⟨0, scoreToTT 5 0,
        (if (5 : Int) ≥ 3 then Flag.LOWERBOUND else Flag.UPPERBOUND), 7,
        NO_MOVE, 0, st0.stopped⟩] :=
  (tt_stores_respect_stop envC5 cfgDatagen 0 NodeK.Root false 0 0 3 0 0 st0 7
    NO_MOVE NO_MOVE 5 0).2.2.1 rfl

end Smallbrain
